import Mathlib

/-!
Verification of the CortexOS retrieval–ranking–retention engine.

This file shallowly embeds the core of the repository in Lean 4 and proves
or refutes the frozen claims about it.  Conventions of the embedding:

* Python floats are modeled as exact rationals (`ℚ`); IEEE rounding is out
  of scope of the claims, all of which are about branch structure, field
  flow and exact algebra.
* Library transcendentals (`math.exp`, `** 0.5`) are modeled as explicit
  function parameters (`pexp`, `psqrt`): the code treats them as opaque
  numeric oracles and no claim depends on their values.
* Timestamps (`datetime`) are rationals (seconds); `datetime.now()` is the
  explicit parameter `now` so that clock reads are visible inputs.
* External collaborators (store, vector index, BM25 index, graph service,
  embedder, entity extractor, LLM summarizer, sklearn clustering, the torch
  scoring model) are explicit function parameters, exactly at the call
  boundaries the Python code uses.
* Python truthiness (`x or y`) on numbers/strings/lists is modeled by the
  corresponding emptiness/zero tests; `x is not None` by `Option.isSome`.
* `list.sort(key=k, reverse=True)` (a stable sort) is modeled by stable
  insertion sort descending on the key (`sortByKeyDesc`).
-/

namespace CortexOS

/-- schema.py `MemoryType`. -/
inductive MemoryType where
  | episodic
  | semantic
  | procedural
deriving DecidableEq, Repr

/-- schema.py `Memory` (pydantic model).  `source` is kept as a plain string
(the `MemorySource` enum value); timestamps are rational seconds. -/
structure Memory where
  user_id : String
  type : MemoryType
  text : String
  summary : String
  entities : List String
  emotion : Option String
  importance : ℚ
  source : String
  id : String
  embedding : Option (List ℚ)
  created_at : ℚ
  last_accessed : Option ℚ
  access_count : ℕ
  last_used : Option ℚ
  usage_count : ℕ
  mvn_score : Option ℚ
  raw_text : Option String
  graph_node_id : Option String
  provenance : List String
  source_session : Option String
  conversation_id : Option String
  confidence_score : Option ℚ
deriving DecidableEq, Repr

/-- schema.py `MemoryCreate`: the input shape for creating a memory.  It has
only the `MemoryBase` fields — in particular it has no `provenance` field. -/
structure MemoryCreate where
  user_id : String
  type : MemoryType
  text : String
  summary : String
  entities : List String
  emotion : Option String
  importance : ℚ
  source : String
deriving DecidableEq, Repr

/-- store.py `MemoryStore.add_memory`, `isinstance(mem, MemoryCreate)` branch:
`Memory(**mem.model_dump(), embedding=embedding, raw_text=mem.text)`.  Every
`Memory` field absent from `MemoryCreate` takes its pydantic default: a fresh
uuid4 (`freshId`), `created_at = utcnow()` (`now`), zero counters, `none`
options and — decisive for the provenance claim — `provenance = []`. -/
def add_memory_create (freshId : String) (now : ℚ) (mc : MemoryCreate)
    (embedding : Option (List ℚ)) : Memory :=
  { user_id := mc.user_id
    type := mc.type
    text := mc.text
    summary := mc.summary
    entities := mc.entities
    emotion := mc.emotion
    importance := mc.importance
    source := mc.source
    id := freshId
    embedding := embedding
    created_at := now
    last_accessed := none
    access_count := 0
    last_used := none
    usage_count := 0
    mvn_score := none
    raw_text := some mc.text
    graph_node_id := none
    provenance := []
    source_session := none
    conversation_id := none
    confidence_score := none }

/-! ## consolidation/decay.py -/

/-- decay.py `discount_factor`: `D(m)`, decay from age and usage.
`t = last_accessed or last_used or created_at` (datetimes are always truthy,
and `created_at` is always set, so the `if not t: return 0.5` guard of the
source is dead); `pexp` stands for `math.exp`. -/
def discount_factor (pexp : ℚ → ℚ) (now : ℚ) (memory : Memory)
    (lambda_decay : ℚ) : ℚ :=
  let t := memory.last_accessed.getD (memory.last_used.getD memory.created_at)
  let delta_days := (now - t) / 86400
  let age_decay := 1 - pexp (-(lambda_decay * max 0 delta_days))
  let usage : ℕ := if memory.usage_count ≠ 0 then memory.usage_count else memory.access_count
  let usage_mod := 0.9 - 0.4 * min 1 ((usage : ℚ) / 10)
  min 1 (max 0 (age_decay * usage_mod))

/-- decay.py `storage_cost`: `C_storage(m)` from text size,
`min(1.0, 0.001 * max(0, len((summary or "") + (raw_text or ""))))`. -/
def storage_cost (memory : Memory) : ℚ :=
  let text := memory.summary ++ memory.raw_text.getD ""
  min 1 (0.001 * max 0 (text.length : ℚ))

/-- decay.py `expected_value_proxy`: `0.6 * max(0.2, mvn) + 0.4 * imp` with
`mvn = mvn_score if mvn_score is not None else 0.5` and
`imp = importance or 0.5` (Python truthiness: `0.0` falls back to `0.5`). -/
def expected_value_proxy (memory : Memory) : ℚ :=
  let mvn := memory.mvn_score.getD 0.5
  let imp := if memory.importance = 0 then 0.5 else memory.importance
  0.6 * max 0.2 mvn + 0.4 * imp

/-- decay.py default `tau_delete`. -/
def tauDelete : ℚ := 0.08

/-- decay.py default `tau_compact`. -/
def tauCompact : ℚ := 0.2

/-- decay.py `compute_pi`:
`Pi(m) = max(0, expected_value * (1 - D(m)) - C_storage(m))`. -/
def compute_pi (pexp : ℚ → ℚ) (now : ℚ) (memory : Memory)
    (lambda_decay : ℚ) : ℚ :=
  let ev := expected_value_proxy memory
  let d := discount_factor pexp now memory lambda_decay
  let c := storage_cost memory
  max 0 (ev * (1 - d) - c)

/-- decay.py `compute_retention`: delegates to `compute_pi` (default
`lambda_decay = 0.1`). -/
def compute_retention (pexp : ℚ → ℚ) (now : ℚ) (memory : Memory) : ℚ :=
  compute_pi pexp now memory 0.1

/-- decay.py `should_compact`: `score < threshold`. -/
def should_compact (score : ℚ) (threshold : ℚ) : Bool :=
  decide (score < threshold)

/-- decay.py `should_delete`: `score < threshold` (strict). -/
def should_delete (score : ℚ) (threshold : ℚ) : Bool :=
  decide (score < threshold)

/-! ## consolidation/summarizer.py -/

/-- summarizer.py `create_semantic_memory`.  The LLM call (`llm_summarize`)
and the embedder are the explicit parameters `summarize` and `embedFn`;
`freshId`/`now` feed the store's `add_memory` for the created record; graph
linking has no effect on the returned memory and is omitted.  The source
computes `provenance = [str(m.id) for m in cluster]` and then never uses it
(`MemoryCreate` cannot carry it); the embedding mirrors that dead binding. -/
def create_semantic_memory (summarize : List String → String)
    (embedFn : String → List ℚ) (freshId : String) (now : ℚ)
    (cluster : List Memory) (user_id : Option String) : Option Memory :=
  let texts := cluster.map (fun m => if m.summary = "" then m.text else m.summary)
  let summary := summarize texts
  if summary = "" then none
  else
    let _provenance := cluster.map (fun m => m.id)
    match user_id.orElse (fun _ => cluster.head?.map (fun m => m.user_id)) with
    | none => none
    | some uid =>
      let create : MemoryCreate :=
        { user_id := uid
          type := MemoryType.semantic
          text := summary
          summary := summary
          entities := []
          emotion := none
          importance := 0.6
          source := (cluster.head?.map (fun m => m.source)).getD "chat" }
      let emb := embedFn summary
      some (add_memory_create freshId now create (some emb))

/-! ## consolidation/sleep_worker.py -/

/-- sleep_worker.py `_cluster_utility`: mean `Pi(m)` over a cluster, 0 for
an empty cluster. -/
def _cluster_utility (pexp : ℚ → ℚ) (now : ℚ) (cluster : List Memory) : ℚ :=
  if cluster.isEmpty then 0
  else (cluster.map (fun m => compute_pi pexp now m 0.1)).sum / (cluster.length : ℚ)

/-- Python `list.sort(key=k, reverse=True)`: stable sort, descending by key,
ties kept in input order — stable insertion sort on `key b ≤ key a`. -/
def sortByKeyDesc (key : α → ℚ) (l : List α) : List α :=
  l.insertionSort (fun a b => key b ≤ key a)

/-- The `run_consolidation` summarization `for` loop (sleep_worker.py lines
46–53): stop at `max_clusters_to_summarize` successes, skip clusters whose
utility is below `cluster_utility_threshold`, count a success only when
`create_semantic_memory` returns a memory. -/
def summarizeLoop (pexp : ℚ → ℚ) (now : ℚ) (summarize : List String → String)
    (embedFn : String → List ℚ) (freshIds : ℕ → String) (user_id : String)
    (cluster_utility_threshold : ℚ) (max_clusters_to_summarize : ℕ) :
    List (List Memory) → ℕ → List Memory → ℕ × List Memory
  | [], created, acc => (created, acc)
  | cluster :: rest, created, acc =>
    if max_clusters_to_summarize ≤ created then (created, acc)
    else if _cluster_utility pexp now cluster < cluster_utility_threshold then
      summarizeLoop pexp now summarize embedFn freshIds user_id
        cluster_utility_threshold max_clusters_to_summarize rest created acc
    else
      match create_semantic_memory summarize embedFn (freshIds created) now
          cluster (some user_id) with
      | some sem =>
        summarizeLoop pexp now summarize embedFn freshIds user_id
          cluster_utility_threshold max_clusters_to_summarize rest (created + 1)
          (acc ++ [sem])
      | none =>
        summarizeLoop pexp now summarize embedFn freshIds user_id
          cluster_utility_threshold max_clusters_to_summarize rest created acc

/-- The `{"clusters": _, "semantic_created": _, "deleted": _}` dict returned
by `run_consolidation`. -/
structure ConsolidationResult where
  clusters : ℕ
  semantic_created : ℕ
  deleted : ℕ
deriving DecidableEq, Repr

/-- `run_consolidation`'s return value together with its store effects: the
semantic memories it upserted and the ids it passed to `store.delete`. -/
structure ConsolidationOutcome where
  result : ConsolidationResult
  created : List Memory
  deletedIds : List String
deriving DecidableEq, Repr

/-- sleep_worker.py `run_consolidation`.  `memories` is the result of
`store.get_user_memories(user_id, limit=2000)`; `clusterFn` is
`clustering.cluster_memories` (sklearn agglomerative clustering, an external
algorithm) returning index lists into the episodic sublist; `freshIds` is the
uuid4 supply for created memories.  Note the two early returns: fewer than
`min_cluster_size` episodic memories with embeddings, or any such embedding
empty, return zero counts before the deletion loop is reached. -/
def run_consolidation (pexp : ℚ → ℚ) (now : ℚ)
    (clusterFn : List Memory → List (List ℕ))
    (summarize : List String → String) (embedFn : String → List ℚ)
    (freshIds : ℕ → String) (user_id : String) (memories : List Memory)
    (min_cluster_size : ℕ) (cluster_utility_threshold : ℚ)
    (max_clusters_to_summarize : ℕ) : ConsolidationOutcome :=
  let episodic := memories.filter
    (fun m => decide (m.type = MemoryType.episodic ∧ m.embedding ≠ none))
  if episodic.length < min_cluster_size then ⟨⟨0, 0, 0⟩, [], []⟩
  else
    let embeddings := episodic.map (fun m => m.embedding.getD [])
    if ¬ (embeddings.all (fun e => !e.isEmpty)) then ⟨⟨0, 0, 0⟩, [], []⟩
    else
      let clusters := clusterFn episodic
      let cluster_list := (clusters.filter
          (fun ix => decide (min_cluster_size ≤ ix.length))).map
        (fun ix => ix.filterMap (fun i => episodic.get? i))
      let sorted := sortByKeyDesc (_cluster_utility pexp now) cluster_list
      let step3 := summarizeLoop pexp now summarize embedFn freshIds user_id
        cluster_utility_threshold max_clusters_to_summarize sorted 0 []
      let deletedMems := memories.filter
        (fun m => should_delete (compute_retention pexp now m) tauDelete)
      ⟨⟨clusters.length, step3.1, deletedMems.length⟩, step3.2,
        deletedMems.map (fun m => m.id)⟩

/-! ## retrieval/hybrid_search.py -/

/-- hybrid_search.py `temporal_score`: exponential time decay from
`t = last_used or created_at`, `exp(-lambda * max(0, delta_days))`;
0.5 when no timestamp at all. -/
def temporal_score (pexp : ℚ → ℚ) (now : ℚ) (created_at last_used : Option ℚ)
    (lambda_decay : ℚ) : ℚ :=
  match last_used.orElse (fun _ => created_at) with
  | none => 0.5
  | some t => pexp (-(lambda_decay * max 0 ((now - t) / 86400)))

/-- The per-candidate `features` dict built by `retrieve_candidates`.
`similarity`, `bm25_score` and `from_graph` are set at creation; the other
keys are added later (`Option` = key absent until written). -/
structure RawFeatures where
  similarity : ℚ
  bm25_score : ℚ
  from_graph : Bool
  temporal_score : Option ℚ
  importance : Option ℚ
  pagerank : Option ℚ
  degree : Option ℤ
  entity_overlap : Option ℚ
deriving DecidableEq, Repr

/-- The BM25 merge inner loop (hybrid_search.py lines 76–79): find the first
candidate whose memory id is `mid` and overwrite only its `bm25_score`. -/
def setBm25First (mid : String) (s : ℚ) :
    List (Memory × RawFeatures) → List (Memory × RawFeatures)
  | [] => []
  | e :: rest =>
    if e.1.id = mid then (e.1, { e.2 with bm25_score := s }) :: rest
    else e :: setBm25First mid s rest

/-- The graph merge inner loop (hybrid_search.py lines 98–101): find the
first candidate whose memory id is `mid` and set only `from_graph = true`. -/
def setFromGraphFirst (mid : String) :
    List (Memory × RawFeatures) → List (Memory × RawFeatures)
  | [] => []
  | e :: rest =>
    if e.1.id = mid then (e.1, { e.2 with from_graph := true }) :: rest
    else e :: setFromGraphFirst mid rest

/-- One BM25 result `(mid, bm25_s)` merged into the running
`(candidates, memory_ids_seen)` state (hybrid_search.py lines 74–84): an
already-seen id merges its score into the existing entry; a new id is added
to `seen`, resolved through `store.get_memory`, and appended with
`similarity = 0` when the store finds it. -/
def mergeLex (storeGet : String → Option Memory)
    (st : List (Memory × RawFeatures) × List String) (x : String × ℚ) :
    List (Memory × RawFeatures) × List String :=
  if x.1 ∈ st.2 then (setBm25First x.1 x.2 st.1, st.2)
  else
    match storeGet x.1 with
    | some m => (st.1 ++ [(m, ⟨0, x.2, false, none, none, none, none, none⟩)],
                 st.2 ++ [x.1])
    | none => (st.1, st.2 ++ [x.1])

/-- One graph-expansion id merged into the running state (hybrid_search.py
lines 96–106): an already-seen id only gets `from_graph = true` on the
existing entry; a new id is added to `seen`, resolved through the store, and
appended only when it belongs to the requesting user
(`user_id is None or str(mem.user_id) == str(user_id)`). -/
def mergeGraph (storeGet : String → Option Memory) (user_id : Option String)
    (st : List (Memory × RawFeatures) × List String) (mid : String) :
    List (Memory × RawFeatures) × List String :=
  if mid ∈ st.2 then (setFromGraphFirst mid st.1, st.2)
  else
    match storeGet mid with
    | some m =>
      if user_id.all (fun u => m.user_id == u) then
        (st.1 ++ [(m, ⟨0, 0, true, none, none, none, none, none⟩)],
         st.2 ++ [mid])
      else (st.1, st.2 ++ [mid])
    | none => (st.1, st.2 ++ [mid])

/-- `retrieve_candidates` before the `merge_cap` truncation and temporal
enrichment: the vector seed set, then the BM25 merge, then the graph merge.
Collaborators: `extractEntities` (entity_parser), `embedFn` (embedder),
`vectorSearch` (`vector_index.search`), `storeGet` (`store.get_memory`),
`userMemories` (`store.get_user_memories(user_id, limit=5000)` for the BM25
owner scope), `bm25` (`bm25_index.search`, absent = `None`), `graph`
(`graph_store.traverse`, absent = `None`). -/
def fusedPreCap (extractEntities : String → List String)
    (embedFn : String → List ℚ)
    (vectorSearch : List ℚ → Option String → ℕ → List (Memory × ℚ))
    (storeGet : String → Option Memory)
    (userMemories : String → List Memory)
    (bm25 : Option (String → ℕ → Option (List String) → List (String × ℚ)))
    (graph : Option (List String → ℕ → List String))
    (query : String) (user_id : Option String) (top_k1 top_k2 : ℕ) :
    List (Memory × RawFeatures) :=
  let query_entities := extractEntities query
  let q_emb := embedFn query
  let vec_results := vectorSearch q_emb user_id top_k1
  let init := vec_results.map
    (fun p => (p.1, (⟨p.2, 0, false, none, none, none, none, none⟩ : RawFeatures)))
  let seen0 := vec_results.map (fun p => p.1.id)
  let afterLex :=
    match bm25 with
    | some b =>
      let user_set : Option (List String) :=
        match user_id with
        | some uid => some ((userMemories uid).map (fun m => m.id))
        | none => none
      (b query top_k2 user_set).foldl (mergeLex storeGet) (init, seen0)
    | none => (init, seen0)
  let graph_ids :=
    match graph with
    | some gf => if query_entities.isEmpty then [] else gf query_entities 2
    | none => []
  (graph_ids.foldl (mergeGraph storeGet user_id) afterLex).1

/-- The post-cap enrichment loop (hybrid_search.py lines 111–113): write
`temporal_score` (from `created_at` and `last_accessed or last_used`) and
`importance` (`mem.importance or 0.5`) into each surviving features dict. -/
def enrichFeats (pexp : ℚ → ℚ) (now : ℚ) (e : Memory × RawFeatures) :
    Memory × RawFeatures :=
  (e.1, { e.2 with
    temporal_score := some (temporal_score pexp now (some e.1.created_at)
      (e.1.last_accessed.orElse (fun _ => e.1.last_used)) 0.1)
    importance := some (if e.1.importance = 0 then 0.5 else e.1.importance) })

/-- hybrid_search.py `retrieve_candidates`: fused pool, truncated at
`merge_cap`, then enriched. -/
def retrieve_candidates (extractEntities : String → List String)
    (embedFn : String → List ℚ)
    (vectorSearch : List ℚ → Option String → ℕ → List (Memory × ℚ))
    (storeGet : String → Option Memory)
    (userMemories : String → List Memory)
    (bm25 : Option (String → ℕ → Option (List String) → List (String × ℚ)))
    (graph : Option (List String → ℕ → List String))
    (pexp : ℚ → ℚ) (now : ℚ)
    (query : String) (user_id : Option String)
    (top_k1 top_k2 merge_cap : ℕ) : List (Memory × RawFeatures) :=
  ((fusedPreCap extractEntities embedFn vectorSearch storeGet userMemories
      bm25 graph query user_id top_k1 top_k2).take merge_cap).map
    (enrichFeats pexp now)

/-! ## retrieval/candidate_builder.py -/

/-- candidate_builder.py `Candidate`: one candidate memory with per-query
ranking features.  Dataclass defaults are written out at each construction
site. -/
structure Candidate where
  memory : Memory
  similarity : ℚ
  recency : ℚ
  importance : ℚ
  pagerank : ℚ
  entity_overlap : ℚ
  bm25_score : ℚ
  temporal_score : ℚ
  from_graph : Bool
  graph_score : ℚ
  mvn_score : Option ℚ
  final_score : Option ℚ
  features : Option RawFeatures
deriving DecidableEq, Repr

/-- candidate_builder.py `Candidate.score`, the non-learned blend:
`0.4*sim + 0.2*recency + 0.2*importance + 0.2*(temporal_score or 0)
+ 0.1*(1.0 if from_graph else 0.0)` (`x or 0` is the identity on floats). -/
def Candidate.score (c : Candidate) : ℚ :=
  0.4 * c.similarity + 0.2 * c.recency + 0.2 * c.importance
    + 0.2 * c.temporal_score + 0.1 * (if c.from_graph then 1 else 0)

/-- candidate_builder.py `_normalize`: min–max to [0,1], 0.5 when the range
is degenerate (the `None` guards of the source cannot fire at its call
sites). -/
def _normalize (x lo hi : ℚ) : ℚ :=
  if hi ≤ lo then 0.5 else max 0 (min 1 ((x - lo) / (hi - lo)))

/-- `(min xs, max xs) if xs else (lo0, hi0)` for the pagerank/degree ranges
of `build_candidates`. -/
def rangeOf (xs : List ℚ) (lo0 hi0 : ℚ) : ℚ × ℚ :=
  match xs with
  | [] => (lo0, hi0)
  | x :: rest => (rest.foldl min x, rest.foldl max x)

/-- candidate_builder.py `build_candidates`: normalized
`graph_score = 0.6*pagerank + 0.4*degree` when any centrality signal spreads,
else a flat `0.3` bonus for graph-reached candidates. -/
def build_candidates (hybrid_results : List (Memory × RawFeatures)) :
    List Candidate :=
  let pr_vals := hybrid_results.map (fun e => e.2.pagerank.getD 0)
  let deg_vals := hybrid_results.map (fun e => ((e.2.degree.getD 0 : ℤ) : ℚ))
  let pr_range := rangeOf pr_vals 0 1
  let deg_range := rangeOf deg_vals 0 1
  hybrid_results.map (fun e =>
    let feats := e.2
    let recency := feats.temporal_score.getD 0
    let importance := feats.importance.getD
      (if e.1.importance = 0 then 0.5 else e.1.importance)
    let sim := feats.similarity
    let bm25 := feats.bm25_score
    let from_graph := feats.from_graph
    let pr := feats.pagerank.getD 0
    let deg := ((feats.degree.getD 0 : ℤ) : ℚ)
    let graph_score :=
      if pr_range.1 < pr_range.2 ∨ deg_range.1 < deg_range.2 then
        0.6 * _normalize pr pr_range.1 pr_range.2
          + 0.4 * _normalize deg deg_range.1 deg_range.2
      else if from_graph then 0.3 else 0
    { memory := e.1
      similarity := sim
      recency := recency
      importance := importance
      pagerank := pr
      entity_overlap := feats.entity_overlap.getD 0
      bm25_score := bm25
      temporal_score := recency
      from_graph := from_graph
      graph_score := graph_score
      mvn_score := none
      final_score := none
      features := some feats })

/-! ## ranking/mvn_features.py and retrieval/intent.py -/

/-- mvn_features.py `_cosine_sim`; `psqrt` stands for `x ** 0.5`. -/
def _cosine_sim (psqrt : ℚ → ℚ) (a b : List ℚ) : ℚ :=
  if a.length ≠ b.length ∨ a.isEmpty then 0
  else
    let dot := ((a.zip b).map (fun p => p.1 * p.2)).sum
    let na := psqrt ((a.map (fun x => x * x)).sum)
    let nb := psqrt ((b.map (fun x => x * x)).sum)
    if na = 0 ∨ nb = 0 then 0 else dot / (na * nb)

/-- mvn_features.py `_recency_score`: `exp(-lambda * max(0, delta_days))`
from `t = last_used or created_at`, 0 when no timestamp. -/
def _recency_score (pexp : ℚ → ℚ) (now : ℚ)
    (created_at last_used : Option ℚ) (lambda_decay : ℚ) : ℚ :=
  match last_used.orElse (fun _ => created_at) with
  | none => 0
  | some t => pexp (-(lambda_decay * max 0 ((now - t) / 86400)))

/-- mvn_features.py `_entity_overlap`:
`|lower(query_entities) ∩ lower(memory_entities)| / |lower(query_entities)|`,
0 when the query has no entities. -/
def _entity_overlap (query_entities memory_entities : List String) : ℚ :=
  if query_entities.isEmpty then 0
  else
    let qset := (query_entities.map String.toLower).dedup
    let mset := (memory_entities.map String.toLower).dedup
    let inter := (qset.filter (fun e => decide (e ∈ mset))).length
    (inter : ℚ) / (qset.length : ℚ)

/-- mvn_features.py `build_mvn_feature_dim`. -/
def build_mvn_feature_dim : ℕ := 11

/-- mvn_features.py `build_mvn_features`: the 11-feature vector from either a
`Candidate` (online path) or a bare `Memory` (offline path); `[]` when
neither is supplied.  `query_embedding or embed(query)` is Python truthiness:
an absent or empty provided embedding falls back to the embedder. -/
def build_mvn_features (extractEntities : String → List String)
    (embedFn : String → List ℚ) (psqrt : ℚ → ℚ) (pexp : ℚ → ℚ) (now : ℚ)
    (query : String) (query_embedding : Option (List ℚ))
    (candidate : Option Candidate) (memory : Option Memory)
    (pagerank : ℚ) (graph_distance : ℚ) (intent_type : ℕ) : List ℚ :=
  let core : Option (Memory × ℚ × ℚ × ℚ × ℚ) :=
    match candidate with
    | some c =>
      let mem := memory.getD c.memory
      let similarity := c.similarity
      let recency := if c.recency = 0 then c.temporal_score else c.recency
      some (mem, similarity, recency, c.importance, c.entity_overlap)
    | none =>
      match memory with
      | some mem =>
        let q_emb :=
          match query_embedding with
          | some qe => if qe.isEmpty then embedFn query else qe
          | none => embedFn query
        let mem_emb := mem.embedding.getD []
        let similarity := if mem_emb.isEmpty then 0 else _cosine_sim psqrt q_emb mem_emb
        let recency := _recency_score pexp now (some mem.created_at)
          (mem.last_accessed.orElse (fun _ => mem.last_used)) 0.1
        let importance := if mem.importance = 0 then 0.5 else mem.importance
        let entity_overlap := _entity_overlap (extractEntities query) mem.entities
        some (mem, similarity, recency, importance, entity_overlap)
      | none => none
  match core with
  | none => []
  | some (mem, similarity, recency, importance, entity_overlap) =>
    let usage : ℕ := if mem.usage_count ≠ 0 then mem.usage_count else mem.access_count
    let usage_norm := if usage = 0 then 0 else min 1 ((usage : ℚ) / 10)
    let emotion_intensity : ℚ :=
      match mem.emotion with
      | some e => if e = "" then 0 else 0.5
      | none => 0
    let novelty : ℚ := 0.5
    [similarity, recency, importance, usage_norm, pagerank, entity_overlap,
     emotion_intensity, similarity, novelty, graph_distance,
     (intent_type : ℚ) / 4]

/-- The `INTENT_IDS` dict of mvn_inference.py / mvn_dataset.py. -/
def INTENT_IDS : List (String × ℕ) :=
  [("recall", 0), ("reasoning", 1), ("personal", 2), ("knowledge", 3),
   ("planning", 4)]

/-- `INTENT_IDS.get(intent, 0)`. -/
def intentIdOf (intent : String) : ℕ :=
  ((INTENT_IDS.find? (fun p => p.1 == intent)).map (fun p => p.2)).getD 0

/-! ## ranking/mvn_inference.py, ranking/reranker.py,
retrieval/retrieval_pipeline.py -/

/-- `f.extend([0.0] * (dim - len(f)))`: right-pad with zeros (a no-op when
the vector is already at least `dim` long — Python does not truncate). -/
def padTo (dim : ℕ) (f : List ℚ) : List ℚ :=
  f ++ List.replicate (dim - f.length) 0

/-- mvn_inference.py `score_candidates`: on an empty candidate list return it
unchanged; otherwise build the (padded) feature matrix and, only when a model
is present, attach its per-row output as `mvn_score`.  `detectIntent` is
intent.py's `detect_intent_simple` (a keyword-regex heuristic over the
query), modeled as an explicit parameter — no claim depends on its output;
`model` is the torch MVN as a row-scoring function, `None` when unloaded. -/
def score_candidates (detectIntent : String → String)
    (extractEntities : String → List String) (embedFn : String → List ℚ)
    (psqrt : ℚ → ℚ) (pexp : ℚ → ℚ) (now : ℚ)
    (query : String) (candidates : List Candidate)
    (model : Option (List ℚ → ℚ)) : List Candidate :=
  if candidates.isEmpty then candidates
  else
    let intent_id := intentIdOf (detectIntent query)
    let featuresOf := fun (c : Candidate) =>
      padTo build_mvn_feature_dim
        (build_mvn_features extractEntities embedFn psqrt pexp now query none
          (some c) none c.pagerank c.graph_score intent_id)
    match model with
    | none => candidates
    | some f => candidates.map (fun c => { c with mvn_score := some (f (featuresOf c)) })

/-- reranker.py `rerank`: overwrite `final_score` with
`0.5*graph_score + 0.3*(mvn or 0) + 0.2*similarity`, stable-sort descending
on `final_score` (all set at this point; the `getattr` fallback to `.score`
is kept), return the top `top_k`. -/
def rerank (candidates : List Candidate) (top_k : ℕ) : List Candidate :=
  let scored := candidates.map (fun c =>
    let mvn := c.mvn_score.getD 0
    let reranker_score := c.graph_score
    let fs := 0.5 * reranker_score + 0.3 * mvn + 0.2 * c.similarity
    { c with final_score := some fs })
  (sortByKeyDesc (fun c => c.final_score.getD c.score) scored).take top_k

/-- retrieval_pipeline.py `retrieve_with_hybrid`: hybrid candidates (with the
default `top_k1=50, top_k2=30, merge_cap=100`), graph-centrality merge from
the store cache (`metricsFn` = `store.get_graph_metrics` per id), candidate
build, MVN scoring, combined final score (learned blend when `mvn_score` is
set, else `Candidate.score`), stable descending sort, then either the
reranker over the top 20 or a plain `[:k]` cut.  `use_intent` is accepted and
unused, as in the source. -/
def retrieve_with_hybrid (detectIntent : String → String)
    (extractEntities : String → List String) (embedFn : String → List ℚ)
    (psqrt : ℚ → ℚ) (pexp : ℚ → ℚ) (now : ℚ)
    (vectorSearch : List ℚ → Option String → ℕ → List (Memory × ℚ))
    (storeGet : String → Option Memory)
    (userMemories : String → List Memory)
    (metricsFn : String → Option (ℚ × ℤ))
    (bm25 : Option (String → ℕ → Option (List String) → List (String × ℚ)))
    (graph : Option (List String → ℕ → List String))
    (mvn_model : Option (List ℚ → ℚ))
    (query : String) (user_id : Option String) (k : ℕ)
    (use_intent use_reranker : Bool) (rerank_top_k : ℕ) : List Candidate :=
  let raw := retrieve_candidates extractEntities embedFn vectorSearch storeGet
    userMemories bm25 graph pexp now query user_id 50 30 100
  let raw := raw.map (fun e =>
    let gm := metricsFn e.1.id
    (e.1, { e.2 with
      pagerank := some ((gm.map (fun p => p.1)).getD 0)
      degree := some ((gm.map (fun p => p.2)).getD 0) }))
  let candidates := build_candidates raw
  let candidates := score_candidates detectIntent extractEntities embedFn
    psqrt pexp now query candidates mvn_model
  let candidates := candidates.map (fun c =>
    match c.mvn_score with
    | some mvn =>
      { c with final_score := some (0.4 * mvn + 0.2 * c.similarity
          + 0.15 * (if c.recency = 0 then c.temporal_score else c.recency)
          + 0.15 * c.importance + 0.1 * c.graph_score) }
    | none => { c with final_score := some c.score })
  let candidates := sortByKeyDesc (fun c => c.final_score.getD c.score) candidates
  let top_20 := candidates.take 20
  if use_reranker && !top_20.isEmpty then rerank top_20 (min rerank_top_k k)
  else candidates.take k

/-! ## graph/graph_store.py -/

/-- What the worker thread of `get_memory_ids_near_entities` did by the time
`thread.join(timeout=TRAVERSE_TIMEOUT_SEC)` returns: it may still be running
(`timeout`), have died without appending to `result_container` (`failed`),
or have appended the query's rows (`answered rows`). -/
inductive SessionOutcome where
  | timeout
  | failed
  | answered (rows : List String)
deriving DecidableEq, Repr

/-- The `seen`-set filter of the worker (`if mid and mid not in seen`):
falsy ids dropped, duplicates collapsed.  `list(seen)` has unspecified set
order in Python; first-insertion order is the representative chosen here. -/
def seenFilter : List String → List String → List String
  | [], _ => []
  | x :: xs, seen =>
    if x = "" ∨ x ∈ seen then seenFilter xs seen
    else x :: seenFilter xs (x :: seen)

/-- graph_store.py `GraphStore.get_memory_ids_near_entities`: `[]` for no
entity names; `[]` when the collaborator does not answer within the time box
(`thread.is_alive()` ⇒ `return []  # timeout: do not block retrieval`); `[]`
when the container stayed empty; otherwise the deduplicated ids. -/
def get_memory_ids_near_entities (entity_names : List String)
    (session : SessionOutcome) : List String :=
  if entity_names.isEmpty then []
  else
    match session with
    | SessionOutcome.timeout => []
    | SessionOutcome.failed => []
    | SessionOutcome.answered rows => seenFilter rows []

/-- graph_store.py `GraphStore.traverse`: delegates to
`get_memory_ids_near_entities`. -/
def traverse (entity_names : List String) (session : SessionOutcome) :
    List String :=
  get_memory_ids_near_entities entity_names session

/-! ## training/mvn_dataset.py -/

/-- One row of `store.get_feedback_logs()` (already normalized to strings
and a float reward by store.py). -/
structure FeedbackLog where
  query : String
  used_memory_ids : List String
  retrieved_memory_ids : List String
  reward : ℚ
deriving DecidableEq, Repr

/-- One sample yielded by `MVNDataset.build`. -/
structure RawSample where
  query : String
  pos_memory_id : String
  neg_memory_ids : List String
  reward : ℚ
  intent_id : ℕ
deriving DecidableEq, Repr

/-- mvn_dataset.py `MVNDataset.build` (the generator, collected to a list):
per log entry, positives = retrieved ∩ used, negatives = retrieved \ used,
with the source's fallbacks (`[retrieved[0]]` / `retrieved[1:2] or
[retrieved[0]]`) and `negatives[:5]`. -/
def MVNDataset.build (detectIntent : String → String)
    (logs : List FeedbackLog) : List RawSample :=
  logs.filterMap (fun entry =>
    let used := entry.used_memory_ids
    match entry.retrieved_memory_ids with
    | [] => none
    | r0 :: rest =>
      let retrieved := r0 :: rest
      let positives := retrieved.filter (fun r => decide (r ∈ used))
      let negatives := retrieved.filter (fun r => decide (r ∉ used))
      if positives.isEmpty ∧ negatives.isEmpty then none
      else
        let positives := if positives.isEmpty then [r0] else positives
        let negatives :=
          if negatives.isEmpty then
            match rest with
            | [] => [r0]
            | x :: _ => [x]
          else negatives
        let intent_id := intentIdOf (detectIntent entry.query)
        some { query := entry.query
               pos_memory_id := positives.headI
               neg_memory_ids := negatives.take 5
               reward := entry.reward
               intent_id := intent_id })

/-- One sample of `MVNDataset.build_feature_samples`. -/
structure FeatureSample where
  pos_features : List ℚ
  neg_features : List (List ℚ)
deriving DecidableEq, Repr

/-- mvn_dataset.py `MVNDataset.build_feature_samples`: resolve each raw
sample's ids through `get_memory_fn`, build positive and negative feature
vectors with the shared Feature Builder, skip entries whose positive id does
not resolve or whose negatives all fail to resolve.  `get_candidate_fn` is
accepted and unused, as in the source. -/
def MVNDataset.build_feature_samples (detectIntent : String → String)
    (extractEntities : String → List String) (embedFn : String → List ℚ)
    (psqrt : ℚ → ℚ) (pexp : ℚ → ℚ) (now : ℚ) (logs : List FeedbackLog)
    (get_memory_fn : String → Option Memory)
    (get_candidate_fn : Option (String → String → Option Candidate)) :
    List FeatureSample :=
  (MVNDataset.build detectIntent logs).filterMap (fun entry =>
    match get_memory_fn entry.pos_memory_id with
    | none => none
    | some pos_mem =>
      let pos_feats := build_mvn_features extractEntities embedFn psqrt pexp
        now entry.query none none (some pos_mem) 0 0 entry.intent_id
      let neg_feats := entry.neg_memory_ids.filterMap (fun nid =>
        (get_memory_fn nid).map (fun m =>
          build_mvn_features extractEntities embedFn psqrt pexp now
            entry.query none none (some m) 0 0 entry.intent_id))
      if neg_feats.isEmpty then none
      else some { pos_features := pos_feats, neg_features := neg_feats })

/-! ## schema.py `Memory.to_db_row` -/

/-- schema.py `MemoryType.value`. -/
def MemoryType.value : MemoryType → String
  | MemoryType.episodic => "episodic"
  | MemoryType.semantic => "semantic"
  | MemoryType.procedural => "procedural"

/-- The row dict produced by `Memory.to_db_row` — the full set of columns
written to Postgres.  There is no provenance column. -/
structure DbRow where
  id : String
  user_id : String
  type : String
  summary : String
  raw_text : String
  embedding : Option (List ℚ)
  importance : ℚ
  emotion : Option String
  created_at : ℚ
  last_used : ℚ
  usage_count : ℕ
  mvn_score : Option ℚ
  entities : List String
  source : String
deriving DecidableEq, Repr

/-- schema.py `Memory.to_db_row`. -/
def Memory.to_db_row (m : Memory) : DbRow :=
  { id := m.id
    user_id := m.user_id
    type := m.type.value
    summary := m.summary
    raw_text := if m.raw_text.getD "" = "" then m.text else m.raw_text.getD ""
    embedding := m.embedding
    importance := m.importance
    emotion := m.emotion
    created_at := m.created_at
    last_used := (m.last_accessed.orElse (fun _ => m.last_used)).getD m.created_at
    usage_count := if m.usage_count ≠ 0 then m.usage_count else m.access_count
    mvn_score := m.mvn_score
    entities := m.entities
    source := m.source }

/-! ## Test fixtures for witnesses and counterexamples -/

/-- A blank memory record; concrete witnesses override individual fields. -/
def mEmpty : Memory :=
  { user_id := "u"
    type := MemoryType.semantic
    text := ""
    summary := ""
    entities := []
    emotion := none
    importance := 0.5
    source := "chat"
    id := "m0"
    embedding := none
    created_at := 0
    last_accessed := none
    access_count := 0
    last_used := none
    usage_count := 0
    mvn_score := none
    raw_text := none
    graph_node_id := none
    provenance := []
    source_session := none
    conversation_id := none
    confidence_score := none }

/-- A blank candidate with neutral features; witnesses override fields. -/
def cNeutral : Candidate :=
  { memory := mEmpty
    similarity := 0
    recency := 0.5
    importance := 0.5
    pagerank := 0
    entity_overlap := 0
    bm25_score := 0
    temporal_score := 0.5
    from_graph := false
    graph_score := 0
    mvn_score := none
    final_score := none
    features := none }

/-! ## C9 — fallback score monotone in similarity -/

/-- C9: for candidates agreeing on every feature except `similarity`, the
non-learned blended score `Candidate.score` is monotone non-decreasing in
`similarity`. -/
theorem C9_fallback_score_monotone (c : Candidate) (s1 s2 : ℚ) (h : s1 ≤ s2) :
    Candidate.score { c with similarity := s1 }
      ≤ Candidate.score { c with similarity := s2 } := by
  simp only [Candidate.score]
  have h4 : (0.4 : ℚ) * s1 ≤ 0.4 * s2 := by nlinarith
  linarith

/-- Witness for C9 at a concrete candidate and similarities 0 ≤ 1. -/
theorem C9_fallback_score_monotone_witness :
    Candidate.score { cNeutral with similarity := 0 }
      ≤ Candidate.score { cNeutral with similarity := 1 } :=
  C9_fallback_score_monotone cNeutral 0 1 (by norm_num)

/-! ## C5 — delete boundary is strict and Pi is clamped at 0 -/

/-- C5: `compute_pi` never returns a negative value; `should_delete` at
`tau_delete` is exactly strict comparison, so a memory whose retention score
equals `tau_delete` is never flagged for deletion. -/
theorem C5_delete_boundary_strict :
    (∀ (pexp : ℚ → ℚ) (now : ℚ) (m : Memory) (lam : ℚ),
      0 ≤ compute_pi pexp now m lam) ∧
    (∀ s : ℚ, should_delete s tauDelete = true ↔ s < tauDelete) ∧
    (∀ (pexp : ℚ → ℚ) (now : ℚ) (m : Memory) (lam : ℚ),
      compute_pi pexp now m lam = tauDelete →
        should_delete (compute_pi pexp now m lam) tauDelete = false) := by
  refine ⟨fun pexp now m lam => ?_, fun s => ?_, fun pexp now m lam h => ?_⟩
  · simp only [compute_pi]
    exact le_max_left 0 _
  · simp [should_delete]
  · simp [should_delete, h]

/-- Witness for C5 at a memory whose retention score is exactly
`tau_delete = 0.08` (no stored text, `exp` oracle chosen so the discount is
0.84): the sweep retains it. -/
theorem C5_delete_boundary_strict_witness :
    should_delete
      (compute_pi (fun _ => (1 : ℚ)/15) 86400 mEmpty 0.1) tauDelete = false :=
  C5_delete_boundary_strict.2.2 (fun _ => (1 : ℚ)/15) 86400 mEmpty 0.1
    (by norm_num [compute_pi, expected_value_proxy, discount_factor,
      storage_cost, mEmpty, tauDelete])

/-! ## C1 — the retention sweep is conditional on clustering feasibility -/

/-- C1 as stated is false: `run_consolidation` returns before the deletion
loop when the user has fewer than `min_cluster_size` episodic memories with
embeddings.  Here a single semantic memory with `Pi = 0.05 < tau_delete`
survives because the early return fires (with the default
`min_cluster_size = 2`). -/
theorem C1_unconditional_delete_counterexample :
    ¬ (∀ (pexp : ℚ → ℚ) (now : ℚ) (clusterFn : List Memory → List (List ℕ))
        (summarize : List String → String) (embedFn : String → List ℚ)
        (freshIds : ℕ → String) (user_id : String) (memories : List Memory)
        (min_cluster_size : ℕ) (thr : ℚ) (maxn : ℕ),
        ∀ m ∈ memories, compute_retention pexp now m < tauDelete →
          m.id ∈ (run_consolidation pexp now clusterFn summarize embedFn
            freshIds user_id memories min_cluster_size thr maxn).deletedIds) := by
  intro h
  have hmem : mEmpty ∈ [mEmpty] := List.mem_singleton.mpr rfl
  have hpi : compute_retention (fun _ => (0 : ℚ)) 86400 mEmpty < tauDelete := by
    norm_num [compute_retention, compute_pi, expected_value_proxy,
      discount_factor, storage_cost, mEmpty, tauDelete]
  have hin := h (fun _ => (0 : ℚ)) 86400 (fun _ => []) (fun _ => "s")
    (fun _ => [1]) (fun _ => "f") "u" [mEmpty] 2 0.15 50 mEmpty hmem hpi
  simp [run_consolidation, mEmpty] at hin

/-- C1 amended: once `run_consolidation` passes the clustering feasibility
checks (at least `min_cluster_size` episodic memories with embeddings, all
of them nonempty), the deletion sweep does apply to every memory: any memory
with `Pi < tau_delete` is deleted; and when the episodic check fails the
call returns immediately with zero counts and no store effects. -/
theorem C1_delete_sweep_amended :
    (∀ (pexp : ℚ → ℚ) (now : ℚ) (clusterFn : List Memory → List (List ℕ))
        (summarize : List String → String) (embedFn : String → List ℚ)
        (freshIds : ℕ → String) (user_id : String) (memories : List Memory)
        (min_cluster_size : ℕ) (thr : ℚ) (maxn : ℕ),
      min_cluster_size ≤ (memories.filter (fun m =>
        decide (m.type = MemoryType.episodic ∧ m.embedding ≠ none))).length →
      (∀ m ∈ memories.filter (fun m =>
        decide (m.type = MemoryType.episodic ∧ m.embedding ≠ none)),
        ¬ m.embedding.getD [] = []) →
      ∀ m ∈ memories, compute_retention pexp now m < tauDelete →
        m.id ∈ (run_consolidation pexp now clusterFn summarize embedFn
          freshIds user_id memories min_cluster_size thr maxn).deletedIds) ∧
    (∀ (pexp : ℚ → ℚ) (now : ℚ) (clusterFn : List Memory → List (List ℕ))
        (summarize : List String → String) (embedFn : String → List ℚ)
        (freshIds : ℕ → String) (user_id : String) (memories : List Memory)
        (min_cluster_size : ℕ) (thr : ℚ) (maxn : ℕ),
      (memories.filter (fun m =>
        decide (m.type = MemoryType.episodic ∧ m.embedding ≠ none))).length
          < min_cluster_size →
      run_consolidation pexp now clusterFn summarize embedFn freshIds user_id
        memories min_cluster_size thr maxn = ⟨⟨0, 0, 0⟩, [], []⟩) := by
  constructor
  · intro pexp now clusterFn summarize embedFn freshIds user_id memories
      min_cluster_size thr maxn hfeas hemb m hm hpi
    have hall : ((memories.filter (fun m =>
        decide (m.type = MemoryType.episodic ∧ m.embedding ≠ none))).map
          (fun m => m.embedding.getD [])).all (fun e => !e.isEmpty) = true := by
      rw [List.all_eq_true]
      intro x hx
      obtain ⟨y, hy, rfl⟩ := List.mem_map.mp hx
      simpa [List.isEmpty_iff] using hemb y hy
    simp only [run_consolidation]
    rw [if_neg (not_lt.mpr hfeas)]
    rw [if_neg (not_not_intro hall)]
    exact List.mem_map.mpr ⟨m, List.mem_filter.mpr
      ⟨hm, by simpa [should_delete, compute_retention] using hpi⟩, rfl⟩
  · intro pexp now clusterFn summarize embedFn freshIds user_id memories
      min_cluster_size thr maxn hshort
    simp only [run_consolidation]
    rw [if_pos hshort]

/-- Witness for the amended C1: with `min_cluster_size = 0` the feasibility
checks pass vacuously and the low-retention memory is deleted. -/
theorem C1_delete_sweep_amended_witness :
    mEmpty.id ∈ (run_consolidation (fun _ => (0 : ℚ)) 86400 (fun _ => [])
      (fun _ => "s") (fun _ => [1]) (fun _ => "f") "u" [mEmpty] 0 0.15
      50).deletedIds :=
  C1_delete_sweep_amended.1 (fun _ => (0 : ℚ)) 86400 (fun _ => [])
    (fun _ => "s") (fun _ => [1]) (fun _ => "f") "u" [mEmpty] 0 0.15 50
    (Nat.zero_le _) (by simp [mEmpty]) mEmpty (List.mem_singleton.mpr rfl)
    (by norm_num [compute_retention, compute_pi, expected_value_proxy,
      discount_factor, storage_cost, mEmpty, tauDelete])

/-! ## C2 — the stored semantic memory's provenance is dropped -/

/-- C2 (code bug): `create_semantic_memory` computes the provenance list and
never attaches it — `MemoryCreate` has no provenance field and the stored
record keeps the pydantic default `[]`.  Evaluated at a 2-memory cluster with
ids A and B: a semantic memory is created, but its provenance is `[]`, not
`["A", "B"]`. -/
theorem C2_provenance_dropped_eval :
    (create_semantic_memory (fun _ => "s") (fun _ => [1]) "S1" 0
        [{ mEmpty with id := "A", type := MemoryType.episodic },
         { mEmpty with id := "B", type := MemoryType.episodic }]
        (some "u")).map Memory.provenance = some []
    ∧ [{ mEmpty with id := "A", type := MemoryType.episodic },
       { mEmpty with id := "B", type := MemoryType.episodic }].map Memory.id
        = ["A", "B"] := by
  constructor
  · simp [create_semantic_memory, add_memory_create, mEmpty]
  · simp [mEmpty]

/-! ## C7 — feature determinism and fixed dimension -/

/-- C7: the Feature Builder is a pure function of its explicit inputs (the
clock, embedder, entity extractor and numeric oracles are passed in, so two
runs with identical inputs are bit-identical), and whenever a candidate or a
memory is supplied the returned vector has length exactly
`build_mvn_feature_dim = 11`. -/
theorem C7_feature_determinism_and_dim :
    (∀ (extractEntities : String → List String) (embedFn : String → List ℚ)
        (psqrt pexp : ℚ → ℚ) (now : ℚ) (query : String)
        (qe : Option (List ℚ)) (cand : Option Candidate) (mem : Option Memory)
        (pr gd : ℚ) (it : ℕ),
      build_mvn_features extractEntities embedFn psqrt pexp now query qe cand
          mem pr gd it
        = build_mvn_features extractEntities embedFn psqrt pexp now query qe
            cand mem pr gd it) ∧
    (∀ (extractEntities : String → List String) (embedFn : String → List ℚ)
        (psqrt pexp : ℚ → ℚ) (now : ℚ) (query : String)
        (qe : Option (List ℚ)) (cand : Option Candidate) (mem : Option Memory)
        (pr gd : ℚ) (it : ℕ),
      cand.isSome = true ∨ mem.isSome = true →
      (build_mvn_features extractEntities embedFn psqrt pexp now query qe cand
          mem pr gd it).length = build_mvn_feature_dim) := by
  refine ⟨fun _ _ _ _ _ _ _ _ _ _ _ _ => rfl, ?_⟩
  intro extractEntities embedFn psqrt pexp now query qe cand mem pr gd it h
  cases cand with
  | some c => simp [build_mvn_features, build_mvn_feature_dim]
  | none =>
    cases mem with
    | some m => simp [build_mvn_features, build_mvn_feature_dim]
    | none => simp at h

/-- Witness for C7 at a concrete candidate input. -/
theorem C7_feature_determinism_and_dim_witness :
    (build_mvn_features (fun _ => []) (fun _ => [1]) id id 0 "q" none
      (some cNeutral) none 0 0 0).length = build_mvn_feature_dim :=
  C7_feature_determinism_and_dim.2 (fun _ => []) (fun _ => [1]) id id 0 "q"
    none (some cNeutral) none 0 0 0 (Or.inl rfl)

/-! ## C6 — one positive and up to two negative samples per feedback entry -/

/-- C6: a feedback log `{retrieved: [A, B, C], used: [B]}` whose ids all
resolve in the store yields exactly one training sample, whose positive
features are B's and whose negatives are exactly A's and C's features (so at
most two). -/
theorem C6_feedback_to_samples (detectIntent : String → String)
    (extractEntities : String → List String) (embedFn : String → List ℚ)
    (psqrt pexp : ℚ → ℚ) (now : ℚ) (q A B C : String) (reward : ℚ)
    (get_memory_fn : String → Option Memory)
    (gcf : Option (String → String → Option Candidate)) (mA mB mC : Memory)
    (hAB : A ≠ B) (hCB : C ≠ B) (hA : get_memory_fn A = some mA)
    (hB : get_memory_fn B = some mB) (hC : get_memory_fn C = some mC) :
    MVNDataset.build_feature_samples detectIntent extractEntities embedFn
        psqrt pexp now
        [{ query := q, used_memory_ids := [B], retrieved_memory_ids := [A, B, C],
           reward := reward }] get_memory_fn gcf
      = [{ pos_features := build_mvn_features extractEntities embedFn psqrt
             pexp now q none none (some mB) 0 0 (intentIdOf (detectIntent q))
           neg_features := [build_mvn_features extractEntities embedFn psqrt
               pexp now q none none (some mA) 0 0 (intentIdOf (detectIntent q)),
             build_mvn_features extractEntities embedFn psqrt pexp now q none
               none (some mC) 0 0 (intentIdOf (detectIntent q))] }] := by
  simp [MVNDataset.build_feature_samples, MVNDataset.build, hA, hB, hC, hAB,
    hCB, List.filter]

/-- Witness for C6 at concrete ids and memories. -/
theorem C6_feedback_to_samples_witness :
    MVNDataset.build_feature_samples (fun _ => "recall") (fun _ => [])
        (fun _ => [1]) id (fun _ => 1) 0
        [{ query := "q", used_memory_ids := ["B"],
           retrieved_memory_ids := ["A", "B", "C"], reward := 0.8 }]
        (fun s => if s = "A" then some { mEmpty with id := "A" }
          else if s = "B" then some { mEmpty with id := "B" }
          else if s = "C" then some { mEmpty with id := "C" } else none) none
      = [{ pos_features := build_mvn_features (fun _ => []) (fun _ => [1]) id
             (fun _ => 1) 0 "q" none none (some { mEmpty with id := "B" }) 0 0
             (intentIdOf "recall")
           neg_features := [build_mvn_features (fun _ => []) (fun _ => [1]) id
               (fun _ => 1) 0 "q" none none (some { mEmpty with id := "A" }) 0
               0 (intentIdOf "recall"),
             build_mvn_features (fun _ => []) (fun _ => [1]) id (fun _ => 1) 0
               "q" none none (some { mEmpty with id := "C" }) 0 0
               (intentIdOf "recall")] }] :=
  C6_feedback_to_samples (fun _ => "recall") (fun _ => []) (fun _ => [1]) id
    (fun _ => 1) 0 "q" "A" "B" "C" 0.8
    (fun s => if s = "A" then some { mEmpty with id := "A" }
      else if s = "B" then some { mEmpty with id := "B" }
      else if s = "C" then some { mEmpty with id := "C" } else none) none
    { mEmpty with id := "A" } { mEmpty with id := "B" } { mEmpty with id := "C" }
    (by decide) (by decide) rfl rfl rfl

/-! ## Fusion helper lemmas -/

/-- The memory ids of a fused candidate list. -/
def idsOf (l : List (Memory × RawFeatures)) : List String :=
  l.map (fun e => e.1.id)

theorem foldl_pres_mem {σ β : Type _} {P : σ → Prop} (f : σ → β → σ) :
    ∀ (l : List β), (∀ s x, x ∈ l → P s → P (f s x)) →
      ∀ s, P s → P (l.foldl f s) := by
  intro l
  induction l with
  | nil => intro _ s hs; exact hs
  | cons a rest ih =>
    intro h s hs
    exact ih (fun s x hx => h s x (List.mem_cons_of_mem a hx)) (f s a)
      (h s a (List.mem_cons_self a rest) hs)

theorem map_fst_setBm25First (mid : String) (s : ℚ) :
    ∀ l : List (Memory × RawFeatures),
      (setBm25First mid s l).map Prod.fst = l.map Prod.fst := by
  intro l
  induction l with
  | nil => rfl
  | cons a rest ih =>
    rw [setBm25First]
    split
    · simp
    · simp [ih]

theorem map_fst_setFromGraphFirst (mid : String) :
    ∀ l : List (Memory × RawFeatures),
      (setFromGraphFirst mid l).map Prod.fst = l.map Prod.fst := by
  intro l
  induction l with
  | nil => rfl
  | cons a rest ih =>
    rw [setFromGraphFirst]
    split
    · simp
    · simp [ih]

theorem idsOf_setBm25First (mid : String) (s : ℚ)
    (l : List (Memory × RawFeatures)) :
    idsOf (setBm25First mid s l) = idsOf l := by
  have h := map_fst_setBm25First mid s l
  simp only [idsOf]
  calc (setBm25First mid s l).map (fun e => e.1.id)
      = ((setBm25First mid s l).map Prod.fst).map Memory.id := by
        rw [List.map_map]; rfl
    _ = (l.map Prod.fst).map Memory.id := by rw [h]
    _ = l.map (fun e => e.1.id) := by rw [List.map_map]; rfl

theorem idsOf_setFromGraphFirst (mid : String)
    (l : List (Memory × RawFeatures)) :
    idsOf (setFromGraphFirst mid l) = idsOf l := by
  have h := map_fst_setFromGraphFirst mid l
  simp only [idsOf]
  calc (setFromGraphFirst mid l).map (fun e => e.1.id)
      = ((setFromGraphFirst mid l).map Prod.fst).map Memory.id := by
        rw [List.map_map]; rfl
    _ = (l.map Prod.fst).map Memory.id := by rw [h]
    _ = l.map (fun e => e.1.id) := by rw [List.map_map]; rfl

theorem mem_setBm25First {mid : String} {s : ℚ} :
    ∀ {l : List (Memory × RawFeatures)} {e : Memory × RawFeatures},
      e ∈ setBm25First mid s l →
      ∃ f0, (e.1, f0) ∈ l ∧ (e.2 = f0 ∨ e.2 = { f0 with bm25_score := s }) := by
  intro l
  induction l with
  | nil => intro e he; simp [setBm25First] at he
  | cons a rest ih =>
    intro e he
    rw [setBm25First] at he
    by_cases h : a.1.id = mid
    · rw [if_pos h] at he
      rcases List.mem_cons.mp he with h1 | h2
      · exact ⟨a.2, by simp [h1], Or.inr (by simp [h1])⟩
      · exact ⟨e.2, List.mem_cons_of_mem a (by simpa using h2), Or.inl rfl⟩
    · rw [if_neg h] at he
      rcases List.mem_cons.mp he with h1 | h2
      · exact ⟨e.2, by simp [h1], Or.inl rfl⟩
      · obtain ⟨f0, hmem, hor⟩ := ih h2
        exact ⟨f0, List.mem_cons_of_mem a hmem, hor⟩

theorem mem_setFromGraphFirst {mid : String} :
    ∀ {l : List (Memory × RawFeatures)} {e : Memory × RawFeatures},
      e ∈ setFromGraphFirst mid l →
      ∃ f0, (e.1, f0) ∈ l ∧ (e.2 = f0 ∨ e.2 = { f0 with from_graph := true }) := by
  intro l
  induction l with
  | nil => intro e he; simp [setFromGraphFirst] at he
  | cons a rest ih =>
    intro e he
    rw [setFromGraphFirst] at he
    by_cases h : a.1.id = mid
    · rw [if_pos h] at he
      rcases List.mem_cons.mp he with h1 | h2
      · exact ⟨a.2, by simp [h1], Or.inr (by simp [h1])⟩
      · exact ⟨e.2, List.mem_cons_of_mem a (by simpa using h2), Or.inl rfl⟩
    · rw [if_neg h] at he
      rcases List.mem_cons.mp he with h1 | h2
      · exact ⟨e.2, by simp [h1], Or.inl rfl⟩
      · obtain ⟨f0, hmem, hor⟩ := ih h2
        exact ⟨f0, List.mem_cons_of_mem a hmem, hor⟩

/-- Ids already present survive a BM25 merge step. -/
theorem mem_idsOf_mergeLex (storeGet : String → Option Memory)
    (st : List (Memory × RawFeatures) × List String) (x : String × ℚ)
    {i : String} (h : i ∈ idsOf st.1) :
    i ∈ idsOf (mergeLex storeGet st x).1 := by
  rw [mergeLex]
  split
  · rw [idsOf_setBm25First]; exact h
  · cases hsg : storeGet x.1 with
    | some m => simp only [hsg, idsOf, List.map_append]
                exact List.mem_append_left _ h
    | none => simp only [hsg]; exact h

/-- Ids already present survive a graph merge step. -/
theorem mem_idsOf_mergeGraph (storeGet : String → Option Memory)
    (user_id : Option String)
    (st : List (Memory × RawFeatures) × List String) (mid : String)
    {i : String} (h : i ∈ idsOf st.1) :
    i ∈ idsOf (mergeGraph storeGet user_id st mid).1 := by
  rw [mergeGraph]
  split
  · rw [idsOf_setFromGraphFirst]; exact h
  · cases hsg : storeGet mid with
    | some m =>
      simp only [hsg]
      split
      · simp only [idsOf, List.map_append]
        exact List.mem_append_left _ h
      · exact h
    | none => simp only [hsg]; exact h

/-- The fusion dedupe invariant: candidate ids are distinct and all marked
seen. -/
def FuseInv (st : List (Memory × RawFeatures) × List String) : Prop :=
  (idsOf st.1).Nodup ∧ ∀ i ∈ idsOf st.1, i ∈ st.2

theorem fuseInv_mergeLex {storeGet : String → Option Memory}
    (hstore : ∀ i m, storeGet i = some m → m.id = i)
    (st : List (Memory × RawFeatures) × List String) (x : String × ℚ)
    (h : FuseInv st) : FuseInv (mergeLex storeGet st x) := by
  obtain ⟨hnd, hsub⟩ := h
  rw [mergeLex]
  split
  · exact ⟨by rw [idsOf_setBm25First]; exact hnd,
      by rw [idsOf_setBm25First]; exact hsub⟩
  · rename_i hseen
    cases hsg : storeGet x.1 with
    | some m =>
      have hid : m.id = x.1 := hstore _ _ hsg
      constructor
      · simp only [idsOf, List.map_append]
        rw [List.nodup_append]
        refine ⟨hnd, List.nodup_singleton _, ?_⟩
        intro i hi
        simp only [List.map_cons, List.map_nil, List.mem_singleton]
        intro hmem
        rw [hmem, hid] at hi
        exact hseen (hsub _ hi)
      · intro i hi
        simp only [idsOf, List.map_append] at hi
        rcases List.mem_append.mp hi with h1 | h2
        · exact List.mem_append_left _ (hsub _ h1)
        · simp only [List.map_cons, List.map_nil, List.mem_singleton] at h2
          rw [h2, hid]
          exact List.mem_append_right _ (List.mem_singleton.mpr rfl)
    | none =>
      exact ⟨hnd, fun i hi => List.mem_append_left _ (hsub _ hi)⟩

theorem fuseInv_mergeGraph {storeGet : String → Option Memory}
    (hstore : ∀ i m, storeGet i = some m → m.id = i)
    (user_id : Option String)
    (st : List (Memory × RawFeatures) × List String) (mid : String)
    (h : FuseInv st) : FuseInv (mergeGraph storeGet user_id st mid) := by
  obtain ⟨hnd, hsub⟩ := h
  rw [mergeGraph]
  split
  · exact ⟨by rw [idsOf_setFromGraphFirst]; exact hnd,
      by rw [idsOf_setFromGraphFirst]; exact hsub⟩
  · rename_i hseen
    cases hsg : storeGet mid with
    | some m =>
      have hid : m.id = mid := hstore _ _ hsg
      simp only [hsg]
      split
      · constructor
        · simp only [idsOf, List.map_append]
          rw [List.nodup_append]
          refine ⟨hnd, List.nodup_singleton _, ?_⟩
          intro i hi
          simp only [List.map_cons, List.map_nil, List.mem_singleton]
          intro hmem
          rw [hmem, hid] at hi
          exact hseen (hsub _ hi)
        · intro i hi
          simp only [idsOf, List.map_append] at hi
          rcases List.mem_append.mp hi with h1 | h2
          · exact List.mem_append_left _ (hsub _ h1)
          · simp only [List.map_cons, List.map_nil, List.mem_singleton] at h2
            rw [h2, hid]
            exact List.mem_append_right _ (List.mem_singleton.mpr rfl)
      · exact ⟨hnd, fun i hi => List.mem_append_left _ (hsub _ hi)⟩
    | none =>
      exact ⟨hnd, fun i hi => List.mem_append_left _ (hsub _ hi)⟩

/-- A BM25 merge step can only extend `seen` by the processed id. -/
theorem mergeLex_seen_sub (storeGet : String → Option Memory)
    (st : List (Memory × RawFeatures) × List String) (x : String × ℚ)
    {i : String} (h : i ∈ (mergeLex storeGet st x).2) :
    i ∈ st.2 ∨ i = x.1 := by
  rw [mergeLex] at h
  split at h
  · exact Or.inl h
  · cases hsg : storeGet x.1 with
    | some m =>
      rw [hsg] at h
      rcases List.mem_append.mp h with h1 | h2
      · exact Or.inl h1
      · exact Or.inr (List.mem_singleton.mp h2)
    | none =>
      rw [hsg] at h
      rcases List.mem_append.mp h with h1 | h2
      · exact Or.inl h1
      · exact Or.inr (List.mem_singleton.mp h2)

/-- A lex result whose id is new and resolvable lands in the fused ids. -/
theorem lexFold_adds {storeGet : String → Option Memory}
    (hstore : ∀ i m, storeGet i = some m → m.id = i) :
    ∀ (items : List (String × ℚ)) (st : List (Memory × RawFeatures) × List String)
      (mid : String) (s : ℚ) (m : Memory),
      (mid, s) ∈ items → (items.map Prod.fst).Nodup → mid ∉ st.2 →
      storeGet mid = some m →
      mid ∈ idsOf ((items.foldl (mergeLex storeGet) st).1) := by
  intro items
  induction items with
  | nil => intro st mid s m h; simp at h
  | cons a rest ih =>
    intro st mid s m hmem hnd hseen hsg
    rcases List.mem_cons.mp hmem with h1 | h2
    · have ha : a.1 = mid := by rw [← h1]
      have hmemid : mid ∈ idsOf ((mergeLex storeGet st a).1) := by
        rw [mergeLex, if_neg (by rw [ha]; exact hseen)]
        rw [ha, hsg]
        simp only [idsOf, List.map_append]
        refine List.mem_append_right _ ?_
        simp [hstore _ _ hsg]
      rw [List.foldl_cons]
      exact foldl_pres_mem (P := fun st => mid ∈ idsOf st.1) _ rest
        (fun s x _ h => mem_idsOf_mergeLex storeGet s x h) _ hmemid
    · have hne : a.1 ≠ mid := by
        intro hcontra
        have : mid ∈ rest.map Prod.fst := List.mem_map.mpr ⟨(mid, s), h2, rfl⟩
        rw [List.map_cons] at hnd
        exact (List.nodup_cons.mp hnd).1 (hcontra ▸ this)
      have hseen2 : mid ∉ (mergeLex storeGet st a).2 := by
        intro hcontra
        rcases mergeLex_seen_sub storeGet st a hcontra with h | h
        · exact hseen h
        · exact hne (h.symm)
      rw [List.foldl_cons]
      exact ih (mergeLex storeGet st a) mid s m h2
        ((List.nodup_cons.mp (List.map_cons Prod.fst a rest ▸ hnd)).2)
        hseen2 hsg

/-- The BM25 merge introduces no graph flag: if every candidate has
`from_graph = false` before the fold, so does every candidate after. -/
theorem lexFold_from_graph_false (storeGet : String → Option Memory)
    (items : List (String × ℚ))
    (st : List (Memory × RawFeatures) × List String)
    (h : ∀ e ∈ st.1, e.2.from_graph = false) :
    ∀ e ∈ (items.foldl (mergeLex storeGet) st).1, e.2.from_graph = false := by
  refine foldl_pres_mem (P := fun st => ∀ e ∈ st.1, e.2.from_graph = false) _
    items ?_ st h
  intro s x _ hP e he
  rw [mergeLex] at he
  split at he
  · obtain ⟨f0, hmem, hor⟩ := mem_setBm25First he
    have hf := hP _ hmem
    rcases hor with h1 | h1 <;> rw [h1] <;> simpa using hf
  · cases hsg : storeGet x.1 with
    | some m =>
      rw [hsg] at he
      rcases List.mem_append.mp he with h1 | h2
      · exact hP _ h1
      · rw [List.mem_singleton.mp h2]
    | none =>
      rw [hsg] at he
      exact hP _ he

/-! ## C8 — graph timeout degrades to zero graph contribution -/

/-- C8: when the graph collaborator does not answer within the time box,
`get_memory_ids_near_entities` returns `[]` rather than raising; fusing with
that time-boxed lookup produces exactly the candidate set of a run with no
graph service at all, and every returned candidate has `from_graph = false`
— zero graph contribution, and the ranking call cannot fail (the lookup and
the fusion are total functions). -/
theorem C8_graph_timeout_degrades :
    (∀ names : List String,
      get_memory_ids_near_entities names SessionOutcome.timeout = []) ∧
    (∀ (extractEntities : String → List String) (embedFn : String → List ℚ)
        (vectorSearch : List ℚ → Option String → ℕ → List (Memory × ℚ))
        (storeGet : String → Option Memory)
        (userMemories : String → List Memory)
        (bm25 : Option (String → ℕ → Option (List String) → List (String × ℚ)))
        (pexp : ℚ → ℚ) (now : ℚ) (query : String) (user_id : Option String)
        (k1 k2 cap : ℕ),
      retrieve_candidates extractEntities embedFn vectorSearch storeGet
          userMemories bm25
          (some (fun names _ =>
            get_memory_ids_near_entities names SessionOutcome.timeout))
          pexp now query user_id k1 k2 cap
        = retrieve_candidates extractEntities embedFn vectorSearch storeGet
            userMemories bm25 none pexp now query user_id k1 k2 cap) ∧
    (∀ (extractEntities : String → List String) (embedFn : String → List ℚ)
        (vectorSearch : List ℚ → Option String → ℕ → List (Memory × ℚ))
        (storeGet : String → Option Memory)
        (userMemories : String → List Memory)
        (bm25 : Option (String → ℕ → Option (List String) → List (String × ℚ)))
        (pexp : ℚ → ℚ) (now : ℚ) (query : String) (user_id : Option String)
        (k1 k2 cap : ℕ),
      ∀ e ∈ retrieve_candidates extractEntities embedFn vectorSearch storeGet
          userMemories bm25
          (some (fun names _ =>
            get_memory_ids_near_entities names SessionOutcome.timeout))
          pexp now query user_id k1 k2 cap,
        e.2.from_graph = false) := by
  have htime : ∀ names : List String,
      get_memory_ids_near_entities names SessionOutcome.timeout = [] := by
    intro names
    simp [get_memory_ids_near_entities]
  have heq : ∀ (extractEntities : String → List String)
      (embedFn : String → List ℚ)
      (vectorSearch : List ℚ → Option String → ℕ → List (Memory × ℚ))
      (storeGet : String → Option Memory)
      (userMemories : String → List Memory)
      (bm25 : Option (String → ℕ → Option (List String) → List (String × ℚ)))
      (pexp : ℚ → ℚ) (now : ℚ) (query : String) (user_id : Option String)
      (k1 k2 cap : ℕ),
      retrieve_candidates extractEntities embedFn vectorSearch storeGet
          userMemories bm25
          (some (fun names _ =>
            get_memory_ids_near_entities names SessionOutcome.timeout))
          pexp now query user_id k1 k2 cap
        = retrieve_candidates extractEntities embedFn vectorSearch storeGet
            userMemories bm25 none pexp now query user_id k1 k2 cap := by
    intro extractEntities embedFn vectorSearch storeGet userMemories bm25
      pexp now query user_id k1 k2 cap
    simp [retrieve_candidates, fusedPreCap, htime]
  refine ⟨htime, heq, ?_⟩
  intro extractEntities embedFn vectorSearch storeGet userMemories bm25
    pexp now query user_id k1 k2 cap e he
  rw [heq] at he
  simp only [retrieve_candidates] at he
  obtain ⟨e0, he0, rfl⟩ := List.mem_map.mp he
  have he0' := List.mem_of_mem_take he0
  show e0.2.from_graph = false
  simp only [fusedPreCap, List.foldl_nil] at he0'
  revert he0'
  cases bm25 with
  | none =>
    intro he0'
    obtain ⟨p, _, rfl⟩ := List.mem_map.mp he0'
    rfl
  | some b =>
    intro he0'
    refine lexFold_from_graph_false storeGet _ _ ?_ e0 he0'
    intro x hx
    obtain ⟨p, _, rfl⟩ := List.mem_map.mp hx
    rfl

/-! ## C10 — owner scoping of fused candidates -/

/-- Owner invariant through the BM25 merge fold: every appended memory comes
from `storeGet` on a lex result, so the hypothesis on lex results keeps the
pool owner-scoped. -/
theorem ownerInv_lexFold (storeGet : String → Option Memory) (uid : String)
    (items : List (String × ℚ))
    (st : List (Memory × RawFeatures) × List String)
    (hitems : ∀ x ∈ items, ∀ m, storeGet x.1 = some m → m.user_id = uid)
    (h : ∀ q ∈ st.1, q.1.user_id = uid) :
    ∀ q ∈ (items.foldl (mergeLex storeGet) st).1, q.1.user_id = uid := by
  refine foldl_pres_mem (P := fun st => ∀ q ∈ st.1, q.1.user_id = uid) _
    items ?_ st h
  intro s x hx hP q hq
  rw [mergeLex] at hq
  split at hq
  · obtain ⟨f0, hmem, _⟩ := mem_setBm25First hq
    exact hP (q.1, f0) hmem
  · cases hsg : storeGet x.1 with
    | some m =>
      rw [hsg] at hq
      rcases List.mem_append.mp hq with h1 | h2
      · exact hP _ h1
      · rw [List.mem_singleton.mp h2]
        exact hitems x hx m hsg
    | none =>
      rw [hsg] at hq
      exact hP _ hq

/-- The graph merge step on a new, store-resolvable id, written out: the
owner check decides between appending and skipping. -/
theorem mergeGraph_eq_some (storeGet : String → Option Memory)
    (user_id : Option String)
    (st : List (Memory × RawFeatures) × List String) (mid : String)
    (m : Memory) (h : mid ∉ st.2) (hsg : storeGet mid = some m) :
    mergeGraph storeGet user_id st mid =
      if user_id.all (fun u => m.user_id == u) then
        (st.1 ++ [(m, ⟨0, 0, true, none, none, none, none, none⟩)],
         st.2 ++ [mid])
      else (st.1, st.2 ++ [mid]) := by
  rw [mergeGraph, if_neg h, hsg]

/-- Owner invariant through the graph merge fold: with a concrete user id
the code itself filters by owner, so no hypothesis on the graph ids is
needed. -/
theorem ownerInv_graphFold (storeGet : String → Option Memory) (uid : String)
    (gids : List String) (st : List (Memory × RawFeatures) × List String)
    (h : ∀ q ∈ st.1, q.1.user_id = uid) :
    ∀ q ∈ (gids.foldl (mergeGraph storeGet (some uid)) st).1,
      q.1.user_id = uid := by
  refine foldl_pres_mem (P := fun st => ∀ q ∈ st.1, q.1.user_id = uid) _
    gids ?_ st h
  intro s mid _ hP q hq
  by_cases hseen : mid ∈ s.2
  · rw [mergeGraph, if_pos hseen] at hq
    obtain ⟨f0, hmem, _⟩ := mem_setFromGraphFirst hq
    exact hP (q.1, f0) hmem
  · cases hsg : storeGet mid with
    | some m =>
      rw [mergeGraph_eq_some storeGet (some uid) s mid m hseen hsg] at hq
      by_cases hguard : (Option.all (fun u => m.user_id == u) (some uid)) = true
      · rw [if_pos hguard] at hq
        rcases List.mem_append.mp hq with h1 | h2
        · exact hP _ h1
        · rw [List.mem_singleton.mp h2]
          simpa using hguard
      · rw [if_neg hguard] at hq
        exact hP _ hq
    | none =>
      rw [mergeGraph, if_neg hseen, hsg] at hq
      exact hP _ hq

/-- C10: when a user id is supplied and the vector and lexical collaborators
honor their owner-scoping contracts, every memory in the fused candidate set
belongs to that user.  The graph path needs no hypothesis: the code filters
graph-reached memories by owner (`user_id is None or str(mem.user_id) ==
str(user_id)`) before adding them. -/
theorem C10_owner_scoped_fusion
    (extractEntities : String → List String) (embedFn : String → List ℚ)
    (vectorSearch : List ℚ → Option String → ℕ → List (Memory × ℚ))
    (storeGet : String → Option Memory) (userMemories : String → List Memory)
    (bm25 : Option (String → ℕ → Option (List String) → List (String × ℚ)))
    (graph : Option (List String → ℕ → List String))
    (pexp : ℚ → ℚ) (now : ℚ) (query : String) (uid : String) (k1 k2 cap : ℕ)
    (hvec : ∀ p ∈ vectorSearch (embedFn query) (some uid) k1, p.1.user_id = uid)
    (hlex : ∀ b, bm25 = some b →
      ∀ x ∈ b query k2 (some ((userMemories uid).map (fun m => m.id))),
        ∀ m, storeGet x.1 = some m → m.user_id = uid) :
    ∀ e ∈ retrieve_candidates extractEntities embedFn vectorSearch storeGet
        userMemories bm25 graph pexp now query (some uid) k1 k2 cap,
      e.1.user_id = uid := by
  intro e he
  simp only [retrieve_candidates] at he
  obtain ⟨e0, he0, rfl⟩ := List.mem_map.mp he
  have he0' := List.mem_of_mem_take he0
  show e0.1.user_id = uid
  simp only [fusedPreCap] at he0'
  have hinit : ∀ q ∈ (vectorSearch (embedFn query) (some uid) k1).map
      (fun p => (p.1,
        (⟨p.2, 0, false, none, none, none, none, none⟩ : RawFeatures))),
      q.1.user_id = uid := by
    intro q hq
    obtain ⟨p, hp, rfl⟩ := List.mem_map.mp hq
    exact hvec p hp
  cases bm25 with
  | none => exact ownerInv_graphFold storeGet uid _ _ hinit e0 he0'
  | some b =>
    exact ownerInv_graphFold storeGet uid _ _
      (ownerInv_lexFold storeGet uid _ _ (hlex b rfl) hinit) e0 he0'

/-- Witness for C10: the graph collaborator returns another user's memory id
and the pipeline filters it out. -/
theorem C10_owner_scoped_fusion_witness :
    ((retrieve_candidates (fun _ => ["topic"]) (fun _ => [1])
        (fun _ _ _ => [({ mEmpty with id := "mine", user_id := "u" }, 1)])
        (fun i => if i = "theirs" then
            some { mEmpty with id := "theirs", user_id := "w" }
          else if i = "mine" then
            some { mEmpty with id := "mine", user_id := "u" }
          else none)
        (fun _ => [{ mEmpty with id := "mine", user_id := "u" }])
        none (some (fun _ _ => ["theirs"])) (fun _ => 1) 0 "q" (some "u")
        50 30 100).all (fun e => e.1.user_id == "u")) = true := by
  rw [List.all_eq_true]
  intro e he
  have h := C10_owner_scoped_fusion (fun _ => ["topic"]) (fun _ => [1])
    (fun _ _ _ => [({ mEmpty with id := "mine", user_id := "u" }, 1)])
    (fun i => if i = "theirs" then
        some { mEmpty with id := "theirs", user_id := "w" }
      else if i = "mine" then
        some { mEmpty with id := "mine", user_id := "u" }
      else none)
    (fun _ => [{ mEmpty with id := "mine", user_id := "u" }])
    none (some (fun _ _ => ["theirs"])) (fun _ => 1) 0 "q" "u" 50 30 100
    (by intro p hp; rw [List.mem_singleton.mp hp]) (by intro b hb; cases hb)
    e he
  simpa using h

/-! ## C4 — fusion dedupe and earlier-source field preservation -/

theorem countP_eq_count_idsOf (mid : String)
    (l : List (Memory × RawFeatures)) :
    l.countP (fun e => e.1.id == mid) = (idsOf l).count mid := by
  simp only [idsOf, List.count_eq_countP, List.countP_map]
  rfl

/-- C4: (1) a memory id appearing in two or more of the vector, lexical and
graph result sets has exactly one entry in the fused candidate list, given
that each source's ids are duplicate-free, the store resolves ids to
memories with that id, the pool fits under `merge_cap`, and the id is
resolvable (seeded by vector search or found by the store); (2) the BM25
merge writes the lexical score into the existing entry, changing no other
field — in particular not zeroing its vector similarity; (3) a graph hit
only sets `from_graph := true` on the existing entry. -/
theorem C4_fusion_dedupe :
    (∀ (extractEntities : String → List String) (embedFn : String → List ℚ)
        (vectorSearch : List ℚ → Option String → ℕ → List (Memory × ℚ))
        (storeGet : String → Option Memory)
        (userMemories : String → List Memory)
        (b : String → ℕ → Option (List String) → List (String × ℚ))
        (gf : List String → ℕ → List String) (pexp : ℚ → ℚ) (now : ℚ)
        (query : String) (user_id : Option String) (k1 k2 cap : ℕ)
        (mid : String),
      (∀ i m, storeGet i = some m → m.id = i) →
      ((vectorSearch (embedFn query) user_id k1).map
        (fun p => p.1.id)).Nodup →
      ((b query k2 (match user_id with
        | some uid => some ((userMemories uid).map (fun m => m.id))
        | none => none)).map Prod.fst).Nodup →
      (fusedPreCap extractEntities embedFn vectorSearch storeGet userMemories
        (some b) (some gf) query user_id k1 k2).length ≤ cap →
      ((mid ∈ (vectorSearch (embedFn query) user_id k1).map (fun p => p.1.id)
          ∧ mid ∈ (b query k2 (match user_id with
            | some uid => some ((userMemories uid).map (fun m => m.id))
            | none => none)).map Prod.fst)
        ∨ (mid ∈ (vectorSearch (embedFn query) user_id k1).map
            (fun p => p.1.id)
          ∧ mid ∈ (if (extractEntities query).isEmpty then []
              else gf (extractEntities query) 2))
        ∨ (mid ∈ (b query k2 (match user_id with
            | some uid => some ((userMemories uid).map (fun m => m.id))
            | none => none)).map Prod.fst
          ∧ mid ∈ (if (extractEntities query).isEmpty then []
              else gf (extractEntities query) 2))) →
      (mid ∈ (vectorSearch (embedFn query) user_id k1).map (fun p => p.1.id)
        ∨ ∃ m, storeGet mid = some m) →
      (retrieve_candidates extractEntities embedFn vectorSearch storeGet
          userMemories (some b) (some gf) pexp now query user_id k1 k2
          cap).countP (fun e => e.1.id == mid) = 1) ∧
    (∀ (l : List (Memory × RawFeatures)) (mid : String) (s : ℚ) (m : Memory)
        (f : RawFeatures), (idsOf l).Nodup → (m, f) ∈ l → m.id = mid →
      (m, { f with bm25_score := s }) ∈ setBm25First mid s l) ∧
    (∀ (l : List (Memory × RawFeatures)) (mid : String) (m : Memory)
        (f : RawFeatures), (idsOf l).Nodup → (m, f) ∈ l → m.id = mid →
      (m, { f with from_graph := true }) ∈ setFromGraphFirst mid l) := by
  refine ⟨?_, ?_, ?_⟩
  · intro extractEntities embedFn vectorSearch storeGet userMemories b gf
      pexp now query user_id k1 k2 cap mid hstore hvnd hlnd hcap htwo hres
    simp only [retrieve_candidates]
    rw [List.countP_map, List.take_of_length_le hcap]
    have hpred : ((fun e : Memory × RawFeatures => e.1.id == mid) ∘
        enrichFeats pexp now) = fun e : Memory × RawFeatures =>
          e.1.id == mid := rfl
    rw [hpred, countP_eq_count_idsOf]
    simp only [fusedPreCap]
    have h0 : FuseInv
        ((vectorSearch (embedFn query) user_id k1).map (fun p => (p.1,
          (⟨p.2, 0, false, none, none, none, none, none⟩ : RawFeatures))),
         (vectorSearch (embedFn query) user_id k1).map (fun p => p.1.id)) := by
      constructor
      · simpa [idsOf, List.map_map] using hvnd
      · intro i hi
        simpa [idsOf, List.map_map] using hi
    have h1 : FuseInv ((b query k2 (match user_id with
        | some uid => some ((userMemories uid).map (fun m => m.id))
        | none => none)).foldl (mergeLex storeGet)
          ((vectorSearch (embedFn query) user_id k1).map (fun p => (p.1,
            (⟨p.2, 0, false, none, none, none, none, none⟩ : RawFeatures))),
           (vectorSearch (embedFn query) user_id k1).map (fun p => p.1.id))) :=
      foldl_pres_mem (P := FuseInv) _ _
        (fun s x _ h => fuseInv_mergeLex hstore s x h) _ h0
    have h2 : FuseInv ((if (extractEntities query).isEmpty then []
        else gf (extractEntities query) 2).foldl
          (mergeGraph storeGet user_id)
          ((b query k2 (match user_id with
            | some uid => some ((userMemories uid).map (fun m => m.id))
            | none => none)).foldl (mergeLex storeGet)
            ((vectorSearch (embedFn query) user_id k1).map (fun p => (p.1,
              (⟨p.2, 0, false, none, none, none, none, none⟩ : RawFeatures))),
             (vectorSearch (embedFn query) user_id k1).map
               (fun p => p.1.id)))) :=
      foldl_pres_mem (P := FuseInv) _ _
        (fun s x _ h => fuseInv_mergeGraph hstore user_id s x h) _ h1
    refine List.count_eq_one_of_mem h2.1 ?_
    by_cases hv : mid ∈ (vectorSearch (embedFn query) user_id k1).map
        (fun p => p.1.id)
    · have hv0 : mid ∈ idsOf (((vectorSearch (embedFn query) user_id k1).map
          (fun p => (p.1,
            (⟨p.2, 0, false, none, none, none, none, none⟩ : RawFeatures))),
          (vectorSearch (embedFn query) user_id k1).map (fun p => p.1.id)) :
            List (Memory × RawFeatures) × List String).1 := by
        simpa [idsOf, List.map_map] using hv
      have hv1 := foldl_pres_mem (P := fun st => mid ∈ idsOf st.1)
        (mergeLex storeGet)
        (b query k2 (match user_id with
          | some uid => some ((userMemories uid).map (fun m => m.id))
          | none => none))
        (fun s x _ h => mem_idsOf_mergeLex storeGet s x h) _ hv0
      exact foldl_pres_mem (P := fun st => mid ∈ idsOf st.1) _ _
        (fun s x _ h => mem_idsOf_mergeGraph storeGet user_id s x h) _ hv1
    · have hlexmem : mid ∈ (b query k2 (match user_id with
          | some uid => some ((userMemories uid).map (fun m => m.id))
          | none => none)).map Prod.fst := by
        rcases htwo with ⟨_, h⟩ | ⟨h, _⟩ | ⟨h, _⟩
        · exact h
        · exact absurd h hv
        · exact h
      obtain ⟨m, hsg⟩ : ∃ m, storeGet mid = some m := by
        rcases hres with h | h
        · exact absurd h hv
        · exact h
      obtain ⟨x, hx, hxfst⟩ := List.mem_map.mp hlexmem
      have hxmem : (mid, x.2) ∈ b query k2 (match user_id with
          | some uid => some ((userMemories uid).map (fun m => m.id))
          | none => none) := by
        have : x = (mid, x.2) := by
          rw [← hxfst]
        rw [← this]
        exact hx
      have hadd := lexFold_adds hstore _
        ((vectorSearch (embedFn query) user_id k1).map (fun p => (p.1,
          (⟨p.2, 0, false, none, none, none, none, none⟩ : RawFeatures))),
         (vectorSearch (embedFn query) user_id k1).map (fun p => p.1.id))
        mid x.2 m hxmem hlnd hv hsg
      exact foldl_pres_mem (P := fun st => mid ∈ idsOf st.1) _ _
        (fun s x _ h => mem_idsOf_mergeGraph storeGet user_id s x h) _ hadd
  · intro l
    induction l with
    | nil => intro mid s m f _ hmem; simp at hmem
    | cons a rest ih =>
      intro mid s m f hnd hmem hid
      rcases List.mem_cons.mp hmem with h1 | h2
      · rw [setBm25First, ← h1, if_pos hid]
        exact List.mem_cons_self _ _
      · by_cases hida : a.1.id = mid
        · exfalso
          have hmid : mid ∈ idsOf rest := by
            rw [← hid]
            exact List.mem_map.mpr ⟨(m, f), h2, rfl⟩
          have : (idsOf (a :: rest)) = a.1.id :: idsOf rest := rfl
          rw [this, List.nodup_cons] at hnd
          exact hnd.1 (hida ▸ hmid)
        · rw [setBm25First, if_neg hida]
          have hnd2 : (idsOf rest).Nodup := by
            have : (idsOf (a :: rest)) = a.1.id :: idsOf rest := rfl
            rw [this, List.nodup_cons] at hnd
            exact hnd.2
          exact List.mem_cons_of_mem a (ih mid s m f hnd2 h2 hid)
  · intro l
    induction l with
    | nil => intro mid m f _ hmem; simp at hmem
    | cons a rest ih =>
      intro mid m f hnd hmem hid
      rcases List.mem_cons.mp hmem with h1 | h2
      · rw [setFromGraphFirst, ← h1, if_pos hid]
        exact List.mem_cons_self _ _
      · by_cases hida : a.1.id = mid
        · exfalso
          have hmid : mid ∈ idsOf rest := by
            rw [← hid]
            exact List.mem_map.mpr ⟨(m, f), h2, rfl⟩
          have : (idsOf (a :: rest)) = a.1.id :: idsOf rest := rfl
          rw [this, List.nodup_cons] at hnd
          exact hnd.1 (hida ▸ hmid)
        · rw [setFromGraphFirst, if_neg hida]
          have hnd2 : (idsOf rest).Nodup := by
            have : (idsOf (a :: rest)) = a.1.id :: idsOf rest := rfl
            rw [this, List.nodup_cons] at hnd
            exact hnd.2
          exact List.mem_cons_of_mem a (ih mid m f hnd2 h2 hid)

/-- Witness for C4: one memory id reached through all three sources is fused
into exactly one candidate entry. -/
theorem C4_fusion_dedupe_witness :
    (retrieve_candidates (fun _ => ["e"]) (fun _ => [1])
      (fun _ _ _ => [({ mEmpty with id := "X" }, 1)])
      (fun i => if i = "X" then some { mEmpty with id := "X" } else none)
      (fun _ => []) (some (fun _ _ _ => [("X", 2)])) (some (fun _ _ => ["X"]))
      (fun _ => 1) 0 "q" none 50 30 100).countP
        (fun e => e.1.id == "X") = 1 :=
  C4_fusion_dedupe.1 (fun _ => ["e"]) (fun _ => [1])
    (fun _ _ _ => [({ mEmpty with id := "X" }, 1)])
    (fun i => if i = "X" then some { mEmpty with id := "X" } else none)
    (fun _ => []) (fun _ _ _ => [("X", 2)]) (fun _ _ => ["X"])
    (fun _ => 1) 0 "q" none 50 30 100 "X"
    (by
      intro i m h
      simp only [] at h
      by_cases hi : i = "X"
      · subst hi
        rw [if_pos rfl] at h
        injection h with h
        rw [← h]
      · rw [if_neg hi] at h
        exact Option.noConfusion h)
    (by simp) (by simp)
    (by norm_num [fusedPreCap, mergeLex, mergeGraph, setBm25First,
      setFromGraphFirst])
    (Or.inl ⟨by simp, by simp⟩) (Or.inl (by simp))

/-! ## C3 — fallback correctness without a scoring model -/

/-- C3 as stated is false for the returned order: with no model loaded but
the reranker enabled (the default), `rerank` overwrites every returned
candidate's `final_score` with `0.5*graph_score + 0.3*0 + 0.2*similarity`,
which differs from the non-learned blend.  Concretely, one vector hit with
similarity 1, recency 1, importance 0.8 has blend score 0.96 but is returned
with `final_score = 0.2`. -/
theorem C3_whole_path_blend_counterexample :
    ¬ (∀ (detectIntent : String → String)
        (extractEntities : String → List String) (embedFn : String → List ℚ)
        (psqrt pexp : ℚ → ℚ) (now : ℚ)
        (vectorSearch : List ℚ → Option String → ℕ → List (Memory × ℚ))
        (storeGet : String → Option Memory)
        (userMemories : String → List Memory)
        (metricsFn : String → Option (ℚ × ℤ))
        (bm25 : Option (String → ℕ → Option (List String) → List (String × ℚ)))
        (graph : Option (List String → ℕ → List String)) (query : String)
        (user_id : Option String) (k : ℕ) (use_intent use_reranker : Bool)
        (rtk : ℕ),
        ∀ c ∈ retrieve_with_hybrid detectIntent extractEntities embedFn psqrt
          pexp now vectorSearch storeGet userMemories metricsFn bm25 graph
          none query user_id k use_intent use_reranker rtk,
          c.final_score = some (Candidate.score c)) := by
  intro h
  have hall := h (fun _ => "x") (fun _ => []) (fun _ => [1]) id (fun _ => 1) 0
    (fun _ _ _ => [({ mEmpty with id := "v", importance := 0.8 }, 1)])
    (fun _ => none) (fun _ => []) (fun _ => none) none none "q" none 10 true
    true 5
  have hb : (retrieve_with_hybrid (fun _ => "x") (fun _ => []) (fun _ => [1])
      id (fun _ => 1) 0
      (fun _ _ _ => [({ mEmpty with id := "v", importance := 0.8 }, 1)])
      (fun _ => none) (fun _ => []) (fun _ => none) none none none "q" none 10
      true true 5).all
        (fun c => decide (c.final_score = some (Candidate.score c))) = true := by
    rw [List.all_eq_true]
    intro c hc
    simp [hall c hc]
  norm_num [retrieve_with_hybrid, retrieve_candidates, fusedPreCap,
    enrichFeats, temporal_score, build_candidates, rangeOf, _normalize,
    score_candidates, rerank, sortByKeyDesc, Candidate.score, mEmpty] at hb

/-- Every candidate built by `build_candidates` starts with no learned
score. -/
theorem build_candidates_mvn_none (l : List (Memory × RawFeatures)) :
    ∀ c ∈ build_candidates l, c.mvn_score = none := by
  intro c hc
  obtain ⟨e, _, rfl⟩ := List.mem_map.mp hc
  rfl

/-- The final-scoring, sorting and truncation tail of the pipeline on
candidates with no learned score: every survivor carries the non-learned
blend as its final score, in descending blend order. -/
theorem noModel_final_scores (cands : List Candidate)
    (hnone : ∀ c ∈ cands, c.mvn_score = none) (k : ℕ) :
    (∀ c ∈ (sortByKeyDesc (fun c => c.final_score.getD c.score)
        (cands.map (fun c =>
          match c.mvn_score with
          | some mvn =>
            { c with final_score := some (0.4 * mvn + 0.2 * c.similarity
                + 0.15 * (if c.recency = 0 then c.temporal_score else c.recency)
                + 0.15 * c.importance + 0.1 * c.graph_score) }
          | none => { c with final_score := some c.score }))).take k,
      c.final_score = some (Candidate.score c)) ∧
    List.Sorted (fun a b => Candidate.score b ≤ Candidate.score a)
      ((sortByKeyDesc (fun c => c.final_score.getD c.score)
        (cands.map (fun c =>
          match c.mvn_score with
          | some mvn =>
            { c with final_score := some (0.4 * mvn + 0.2 * c.similarity
                + 0.15 * (if c.recency = 0 then c.temporal_score else c.recency)
                + 0.15 * c.importance + 0.1 * c.graph_score) }
          | none => { c with final_score := some c.score }))).take k) := by
  have hP : ∀ c ∈ cands.map (fun c =>
      match c.mvn_score with
      | some mvn =>
        { c with final_score := some (0.4 * mvn + 0.2 * c.similarity
            + 0.15 * (if c.recency = 0 then c.temporal_score else c.recency)
            + 0.15 * c.importance + 0.1 * c.graph_score) }
      | none => { c with final_score := some c.score }),
      c.final_score = some (Candidate.score c) := by
    intro c hc
    obtain ⟨c0, hc0, rfl⟩ := List.mem_map.mp hc
    have hn := hnone c0 hc0
    simp only [hn]
    rfl
  have hperm := List.perm_insertionSort (fun a b : Candidate =>
    (fun c : Candidate => c.final_score.getD c.score) b
      ≤ (fun c : Candidate => c.final_score.getD c.score) a)
    (cands.map (fun c =>
      match c.mvn_score with
      | some mvn =>
        { c with final_score := some (0.4 * mvn + 0.2 * c.similarity
            + 0.15 * (if c.recency = 0 then c.temporal_score else c.recency)
            + 0.15 * c.importance + 0.1 * c.graph_score) }
      | none => { c with final_score := some c.score }))
  have hPs : ∀ c ∈ sortByKeyDesc (fun c => c.final_score.getD c.score)
      (cands.map (fun c =>
        match c.mvn_score with
        | some mvn =>
          { c with final_score := some (0.4 * mvn + 0.2 * c.similarity
              + 0.15 * (if c.recency = 0 then c.temporal_score else c.recency)
              + 0.15 * c.importance + 0.1 * c.graph_score) }
        | none => { c with final_score := some c.score })),
      c.final_score = some (Candidate.score c) :=
    fun c hc => hP c (hperm.mem_iff.mp hc)
  constructor
  · intro c hc
    exact hPs c (List.mem_of_mem_take hc)
  · haveI hTot : IsTotal Candidate (fun a b =>
        (fun c : Candidate => c.final_score.getD c.score) b
          ≤ (fun c : Candidate => c.final_score.getD c.score) a) :=
      ⟨fun a b => le_total _ _⟩
    haveI hTr : IsTrans Candidate (fun a b =>
        (fun c : Candidate => c.final_score.getD c.score) b
          ≤ (fun c : Candidate => c.final_score.getD c.score) a) :=
      ⟨fun a b c h1 h2 => le_trans h2 h1⟩
    have hs := List.sorted_insertionSort (fun a b : Candidate =>
      (fun c : Candidate => c.final_score.getD c.score) b
        ≤ (fun c : Candidate => c.final_score.getD c.score) a)
      (cands.map (fun c =>
        match c.mvn_score with
        | some mvn =>
          { c with final_score := some (0.4 * mvn + 0.2 * c.similarity
              + 0.15 * (if c.recency = 0 then c.temporal_score else c.recency)
              + 0.15 * c.importance + 0.1 * c.graph_score) }
        | none => { c with final_score := some c.score }))
    have hs2 : List.Sorted (fun a b => Candidate.score b ≤ Candidate.score a)
        (sortByKeyDesc (fun c => c.final_score.getD c.score)
          (cands.map (fun c =>
            match c.mvn_score with
            | some mvn =>
              { c with final_score := some (0.4 * mvn + 0.2 * c.similarity
                  + 0.15 * (if c.recency = 0 then c.temporal_score
                    else c.recency)
                  + 0.15 * c.importance + 0.1 * c.graph_score) }
            | none => { c with final_score := some c.score }))) := by
      refine List.Pairwise.imp_of_mem ?_ hs
      intro a b ha hb hle
      have hka := hPs a ha
      have hkb := hPs b hb
      simpa [hka, hkb] using hle
    exact List.Pairwise.sublist (List.take_sublist _ _) hs2

/-- C3 amended: with no model loaded, `score_candidates` returns its input
unchanged (the model is never invoked); with a model loaded on an empty
candidate list, inference returns `[]` without error; and with no model and
reranking disabled, every candidate's final score along the whole path —
including the returned, descending-sorted order — is the non-learned blend
`Candidate.score`.  (With reranking enabled, the returned order follows the
reranker's blend with learned utility treated as 0, as the counterexample
shows.) -/
theorem C3_no_model_fallback_amended :
    (∀ (detectIntent : String → String)
        (extractEntities : String → List String) (embedFn : String → List ℚ)
        (psqrt pexp : ℚ → ℚ) (now : ℚ) (query : String)
        (candidates : List Candidate),
      score_candidates detectIntent extractEntities embedFn psqrt pexp now
        query candidates none = candidates) ∧
    (∀ (detectIntent : String → String)
        (extractEntities : String → List String) (embedFn : String → List ℚ)
        (psqrt pexp : ℚ → ℚ) (now : ℚ) (query : String) (f : List ℚ → ℚ),
      score_candidates detectIntent extractEntities embedFn psqrt pexp now
        query [] (some f) = []) ∧
    (∀ (detectIntent : String → String)
        (extractEntities : String → List String) (embedFn : String → List ℚ)
        (psqrt pexp : ℚ → ℚ) (now : ℚ)
        (vectorSearch : List ℚ → Option String → ℕ → List (Memory × ℚ))
        (storeGet : String → Option Memory)
        (userMemories : String → List Memory)
        (metricsFn : String → Option (ℚ × ℤ))
        (bm25 : Option (String → ℕ → Option (List String) → List (String × ℚ)))
        (graph : Option (List String → ℕ → List String)) (query : String)
        (user_id : Option String) (k : ℕ) (use_intent : Bool) (rtk : ℕ),
      (∀ c ∈ retrieve_with_hybrid detectIntent extractEntities embedFn psqrt
          pexp now vectorSearch storeGet userMemories metricsFn bm25 graph
          none query user_id k use_intent false rtk,
        c.final_score = some (Candidate.score c)) ∧
      List.Sorted (fun a b => Candidate.score b ≤ Candidate.score a)
        (retrieve_with_hybrid detectIntent extractEntities embedFn psqrt pexp
          now vectorSearch storeGet userMemories metricsFn bm25 graph none
          query user_id k use_intent false rtk)) := by
  have hSC : ∀ (detectIntent : String → String)
      (extractEntities : String → List String) (embedFn : String → List ℚ)
      (psqrt pexp : ℚ → ℚ) (now : ℚ) (query : String)
      (candidates : List Candidate),
      score_candidates detectIntent extractEntities embedFn psqrt pexp now
        query candidates none = candidates := by
    intro detectIntent extractEntities embedFn psqrt pexp now query candidates
    simp [score_candidates]
  refine ⟨hSC, fun _ _ _ _ _ _ _ _ => rfl, ?_⟩
  intro detectIntent extractEntities embedFn psqrt pexp now vectorSearch
    storeGet userMemories metricsFn bm25 graph query user_id k use_intent rtk
  simp only [retrieve_with_hybrid, hSC, Bool.false_and, Bool.false_eq_true,
    if_false]
  exact noModel_final_scores _ (build_candidates_mvn_none _) k

/-- Witness for the amended C3 at concrete inputs: no-model inference is the
identity, a model on no candidates yields `[]`, and the no-model
no-reranker pipeline returns blend-scored candidates. -/
theorem C3_no_model_fallback_amended_witness :
    score_candidates (fun _ => "x") (fun _ => []) (fun _ => [1]) id
        (fun _ => 1) 0 "q" [cNeutral] none = [cNeutral]
    ∧ score_candidates (fun _ => "x") (fun _ => []) (fun _ => [1]) id
        (fun _ => 1) 0 "q" [] (some (fun _ => 0.5)) = []
    ∧ (retrieve_with_hybrid (fun _ => "x") (fun _ => []) (fun _ => [1]) id
        (fun _ => 1) 0
        (fun _ _ _ => [({ mEmpty with id := "v", importance := 0.8 }, 1)])
        (fun _ => none) (fun _ => []) (fun _ => none) none none none "q" none
        10 true false 5).all
          (fun c => decide (c.final_score = some (Candidate.score c))) = true := by
  refine ⟨C3_no_model_fallback_amended.1 (fun _ => "x") (fun _ => [])
      (fun _ => [1]) id (fun _ => 1) 0 "q" [cNeutral],
    C3_no_model_fallback_amended.2.1 (fun _ => "x") (fun _ => [])
      (fun _ => [1]) id (fun _ => 1) 0 "q" (fun _ => 0.5), ?_⟩
  rw [List.all_eq_true]
  intro c hc
  have := (C3_no_model_fallback_amended.2.2 (fun _ => "x") (fun _ => [])
    (fun _ => [1]) id (fun _ => 1) 0
    (fun _ _ _ => [({ mEmpty with id := "v", importance := 0.8 }, 1)])
    (fun _ => none) (fun _ => []) (fun _ => none) none none "q" none 10 true
    5).1 c hc
  simp [this]

end CortexOS
